import Mathlib

set_option autoImplicit false

/-!
Verification development for the coachboard single-page application
(src/app.js).  The application state, its persistence layer and every
mutating operation referenced by the specification are embedded as
executable Lean definitions, translated directly from the JavaScript
source.  Strings are modelled as lists of characters; JavaScript
numbers that flow through the id paths are modelled by `JsNum`
(an integer or NaN).
-/

namespace Coachboard

/-- Strings are modelled as lists of characters. -/
abbrev Str := List Char

/-- Conversion from Lean string literals to the model. -/
def str (s : String) : Str := s.data

/-- JavaScript numbers as they occur on the id paths: an integer or NaN.
(`uidNumeric` and `Number` of a decimal string produce integers below
2^53, which are exact; the only other value reachable on the id paths is
NaN, from `Number` of non-numeric text.) -/
inductive JsNum where
  | nan
  | int (n : Int)
deriving DecidableEq, Repr

/-- JavaScript strict equality `===` on numbers: IEEE semantics, so
`NaN === NaN` is false. -/
def jsEqb : JsNum → JsNum → Bool
  | JsNum.int a, JsNum.int b => a = b
  | _, _ => false

/-- SameValueZero equality, used by `Array.prototype.includes`, `Set`
and `Map` keys: NaN equals NaN.  This coincides with `DecidableEq`
equality on `JsNum`. -/
def jsSameValueZero (a b : JsNum) : Bool := a = b

/-- The whitespace characters stripped by JavaScript `String.prototype.trim`
(WhiteSpace plus LineTerminator). -/
def jsWsCodes : List Nat :=
  [9, 10, 11, 12, 13, 32, 160, 5760,
   8192, 8193, 8194, 8195, 8196, 8197, 8198, 8199, 8200, 8201, 8202,
   8232, 8233, 8239, 8287, 12288, 65279]

/-- Whitespace test by code point. -/
def isJsWs (c : Char) : Bool := jsWsCodes.contains c.toNat

/-- JavaScript `String.prototype.trim`: strip whitespace from both ends. -/
def trimStr (s : Str) : Str :=
  ((s.dropWhile isJsWs).reverse.dropWhile isJsWs).reverse

/-- Decimal digit character for a digit value (used by number-to-string). -/
def digitChar : Nat → Char
  | 0 => '0' | 1 => '1' | 2 => '2' | 3 => '3' | 4 => '4'
  | 5 => '5' | 6 => '6' | 7 => '7' | 8 => '8' | _ => '9'

/-- Value of a decimal digit character. -/
def digitVal : Char → Nat
  | '0' => 0 | '1' => 1 | '2' => 2 | '3' => 3 | '4' => 4
  | '5' => 5 | '6' => 6 | '7' => 7 | '8' => 8 | _ => 9

/-- Decimal digit test (code points 48 to 57). -/
def isDigitCh (c : Char) : Bool := 48 ≤ c.toNat && c.toNat ≤ 57

/-- Decimal digits of a natural number, most significant first
(fuel-based so that it reduces by evaluation; the fuel `n+1` always
suffices since the argument strictly shrinks). -/
def natCharsAux : Nat → Nat → List Char
  | 0, _ => []
  | fuel+1, n => if n < 10 then [digitChar n] else natCharsAux fuel (n / 10) ++ [digitChar (n % 10)]

/-- Decimal representation of a natural number. -/
def natChars (n : Nat) : List Char := natCharsAux (n + 1) n

/-- JavaScript `String(n)` for an (exact) integer number. -/
def intToStr (i : Int) : Str :=
  if i < 0 then '-' :: natChars (-i).toNat else natChars i.toNat

/-- JavaScript `String(x)` on the id values of the model:
`String(NaN) = "NaN"`, integers print in decimal. -/
def jsNumToString : JsNum → Str
  | JsNum.nan => str "NaN"
  | JsNum.int i => intToStr i

/-- Numeric value of a list of decimal digit characters. -/
def digitsVal (s : Str) : Nat :=
  s.foldl (fun a c => 10 * a + digitVal c) 0

/-- JavaScript `Number(s)` restricted to the strings that reach it in
this program: the empty string is 0, an optionally negated run of
decimal digits is its value, and any other text (such as letters) is
NaN.  (Fractional, exponent and hexadecimal literals never arise on the
id paths modelled here.) -/
def jsStringToNum (s : Str) : JsNum :=
  let t := trimStr s
  if t.isEmpty then JsNum.int 0
  else if t.head? = some '-' then
    (if !t.tail.isEmpty && t.tail.all isDigitCh
     then JsNum.int (-(digitsVal t.tail : Int)) else JsNum.nan)
  else if t.all isDigitCh then JsNum.int (digitsVal t) else JsNum.nan

/-! ## CSV encoding and decoding (`toCSV`, `fromCSV` from src/app.js) -/

/-- Does a field need quoting?  `toCSV` tests `/[",\n]/`. -/
def hasSpecial (s : Str) : Bool :=
  s.any (fun c => c == '"' || c == ',' || c == '\n')

/-- Double every embedded quote (`replaceAll('"','""')`). -/
def dblQuotes : Str → Str
  | [] => []
  | c :: rest => if c = '"' then '"' :: '"' :: dblQuotes rest else c :: dblQuotes rest

/-- `toCSV`'s `esc`: quote the field when it contains a quote, comma or
newline, doubling embedded quotes. -/
def escField (s : Str) : Str :=
  if hasSpecial s then '"' :: dblQuotes s ++ ['"'] else s

/-- Join a list of strings with a separator character. -/
def joinWith (sep : Char) : List Str → Str
  | [] => []
  | [l] => l
  | l :: ls => l ++ sep :: joinWith sep ls

/-- `toCSV(rows, headers)`: header line then one escaped line per row,
joined with newlines.  A row is given as its cells in header order
(the JavaScript maps `headers.map(h => esc(r[h]))`). -/
def toCSVLines (rows : List (List Str)) (headers : List Str) : Str :=
  joinWith '\n' (joinWith ',' headers :: rows.map (fun r => joinWith ',' (r.map escField)))

/-- The scanner state of the cell splitter inside `fromCSV`
(`parseLine`): outside quotes, inside quotes, or directly after a quote
character seen while inside quotes (the JavaScript loop expresses the
last case by a one-character lookahead `line[i+1]`; carrying it as a
state gives the same scan). -/
inductive PState where
  | out
  | inq
  | quo
deriving DecidableEq, Repr

/-- The quote-aware cell splitter inside `fromCSV` (`parseLine`), before
the final per-cell trim: commas split only outside quotes, a doubled
quote inside quotes stands for a literal quote. -/
def plAux : List Char → PState → Str → List Str → List Str
  | [], _, cur, acc => acc ++ [cur]
  | c :: rest, PState.out, cur, acc =>
    if c = '"' then plAux rest PState.inq cur acc
    else if c = ',' then plAux rest PState.out [] (acc ++ [cur])
    else plAux rest PState.out (cur ++ [c]) acc
  | c :: rest, PState.inq, cur, acc =>
    if c = '"' then plAux rest PState.quo cur acc
    else plAux rest PState.inq (cur ++ [c]) acc
  | c :: rest, PState.quo, cur, acc =>
    if c = '"' then plAux rest PState.inq (cur ++ ['"']) acc
    else if c = ',' then plAux rest PState.out [] (acc ++ [cur])
    else plAux rest PState.out (cur ++ [c]) acc

/-- `parseLine` from `fromCSV`: split into cells, then trim each cell. -/
def parseLine (line : Str) : List Str :=
  (plAux line PState.out [] []).map trimStr

/-- Split a string on a separator character (JavaScript `split("\n")`). -/
def splitOnChar (sep : Char) : Str → List Str
  | [] => [[]]
  | c :: rest =>
      let r := splitOnChar sep rest
      if c = sep then [] :: r
      else match r with
        | [] => [[c]]
        | l :: ls => (c :: l) :: ls

/-- `text.replace(/\r\n/g,"\n").replace(/\r/g,"\n")`: since every CRLF
pair turns into LF and then every remaining CR turns into LF, the
composite effect is to replace each CR by LF and drop a CR that directly
precedes an LF. -/
def normalizeNewlines : Str → Str
  | [] => []
  | '\r' :: '\n' :: rest => '\n' :: normalizeNewlines rest
  | '\r' :: rest => '\n' :: normalizeNewlines rest
  | c :: rest => c :: normalizeNewlines rest

/-- A row object as built by `fromCSV`: header-to-cell assignments in
header order (`headers.forEach((h, idx) => row[h] = cells[idx] ?? "")`).
Headers produced by this program are pairwise distinct, so first-match
lookup below agrees with JavaScript property semantics. -/
def mkRow : List Str → List Str → List (Str × Str)
  | [], _ => []
  | h :: hs, [] => (h, []) :: mkRow hs []
  | h :: hs, c :: cs => (h, c) :: mkRow hs cs

/-- Property read `r[h]` as an option (`undefined` when the header is
absent), feeding the `??` chains of `importRosterCSV`. -/
def rowGet (row : List (Str × Str)) (key : Str) : Option Str :=
  (row.find? (fun p => p.1 = key)).map (fun p => p.2)

/-- Result record of `fromCSV`. -/
structure CsvDoc where
  headers : List Str
  rows : List (List (Str × Str))
deriving Repr

/-- `fromCSV(text)` from src/app.js: normalize newlines, split into
lines, drop blank lines, parse the first line as headers and each later
line into a row object. -/
def fromCSV (text : Str) : CsvDoc :=
  let lines := (splitOnChar '\n' (normalizeNewlines text)).filter
    (fun l => (trimStr l).length ≠ 0)
  match lines with
  | [] => { headers := [], rows := [] }
  | l0 :: rest =>
      let headers := (parseLine l0).map trimStr
      { headers := headers,
        rows := rest.map (fun l => mkRow headers (parseLine l)) }

/-! ## Data model (the `state` object of src/app.js) -/

/-- Roster record `{id, first, last, position, jersey, team}`. -/
structure Athlete where
  id : JsNum
  first : Str
  last : Str
  position : Str
  jersey : Str
  team : Str
deriving DecidableEq, Repr

/-- A normalized point `{x, y}` produced by `relPoint` (coordinates are
ratios of client offsets to the canvas size, so rationals). -/
structure Point where
  x : Rat
  y : Rat
deriving DecidableEq, Repr

/-- A telestration stroke `{id, tool, color, size, points, createdAt}`. -/
structure Stroke where
  id : JsNum
  tool : Str
  color : Str
  size : Rat
  points : List Point
  createdAt : Int
deriving DecidableEq, Repr

/-- A timestamp record `{id, time, title, description, taggedAthleteIds,
drawings}`.  The `|| []` guards in the source make a missing
`taggedAthleteIds`/`drawings` behave as the empty list, which is how they
are modelled. -/
structure Annotation where
  id : JsNum
  time : Int
  title : Str
  description : Str
  taggedAthleteIds : List JsNum
  drawings : List Stroke
deriving DecidableEq, Repr

/-- The persisted project document: the `state` global. -/
structure Doc where
  projectId : JsNum
  youtubeUrl : Str
  youtubeId : Str
  roster : List Athlete
  timestamps : List Annotation
deriving DecidableEq, Repr

/-- Whole application state: the document plus the module-level UI
variables that the operations read and write (`selectedTsId`,
`drawEnabled`, the active drawing buffer `drawings`, `activeStroke`) and
the `localStorage` copy written by `saveState` (`none` when the key is
absent).  The last messages written to `#status` and `#rosterStatus` are
recorded to express the reporting clauses of the specification. -/
structure AppState where
  doc : Doc
  storage : Option Doc
  selectedTsId : Option JsNum
  drawEnabled : Bool
  drawings : List Stroke
  activeStroke : Option Stroke
  status : Str
  rosterStatus : Str
deriving Repr

/-- `saveState()`: serialize the whole document into local storage. -/
def saveState (st : AppState) : AppState := { st with storage := some st.doc }

/-- JavaScript truthiness of a number: `0` and `NaN` are falsy. -/
def jsTruthy : JsNum → Bool
  | JsNum.nan => false
  | JsNum.int n => n != 0

/-- Truthiness of the nullable `selectedTsId` variable. -/
def optTruthy : Option JsNum → Bool
  | none => false
  | some v => jsTruthy v

/-- `state.timestamps.find(t => t.id === id)`. -/
def findTs (tss : List Annotation) (id : JsNum) : Option Annotation :=
  tss.find? (fun t => jsEqb t.id id)

/-- Mutate the first list element satisfying the predicate, as the
`find`-then-mutate pattern of the source does. -/
def updateFirst {α : Type} (p : α → Bool) (f : α → α) : List α → List α
  | [] => []
  | x :: xs => if p x then f x :: xs else x :: updateFirst p f xs

/-! ## Roster operations -/

/-- The Delete-button handler bound in `renderRosterTable`: the clicked
athlete id comes back from the DOM attribute, so it is printed and
re-parsed (`Number(btn.getAttribute("data-del"))`); the athlete is
filtered out of the roster by `Number(x.id) !== id` and the id is
filtered out of every annotation tag list, then the state is saved. -/
def removeAthleteClick (st : AppState) (athleteId : JsNum) : AppState :=
  let id := jsStringToNum (jsNumToString athleteId)
  let roster := st.doc.roster.filter (fun x => !(jsEqb x.id id))
  let timestamps := st.doc.timestamps.map (fun ts =>
    { ts with taggedAthleteIds := ts.taggedAthleteIds.filter (fun aid => !(jsEqb aid id)) })
  saveState { st with doc := { st.doc with roster := roster, timestamps := timestamps } }

/-- `addAthlete()`: trim the five input fields, refuse with a status
message when first or last is empty, otherwise append a record with a
freshly generated id (`uidNumeric()`, supplied here as the
nondeterministic input `fresh`) and save. -/
def addAthlete (st : AppState) (firstIn lastIn posIn jerseyIn teamIn : Str)
    (fresh : Int) : AppState :=
  let first := trimStr firstIn
  let last := trimStr lastIn
  let position := trimStr posIn
  let jersey := trimStr jerseyIn
  let team := trimStr teamIn
  if first.isEmpty || last.isEmpty then
    { st with rosterStatus := str "First and last name are required." }
  else
    let id := JsNum.int fresh
    let st := saveState { st with doc := { st.doc with
      roster := st.doc.roster ++ [⟨id, first, last, position, jersey, team⟩] } }
    { st with rosterStatus := str "Added athlete ID " ++ jsNumToString id ++ str "." }

/-- `clearRoster()`: empty the roster, empty every annotation tag list,
save. -/
def clearRoster (st : AppState) : AppState :=
  let timestamps := st.doc.timestamps.map (fun ts => { ts with taggedAthleteIds := [] })
  let st := saveState { st with doc := { st.doc with roster := [], timestamps := timestamps } }
  { st with rosterStatus := str "Roster cleared." }

/-- The fixed header list of `exportRosterCSV`. -/
def rosterHeaders : List Str :=
  [str "id", str "first", str "last", str "position", str "jersey", str "team"]

/-- The cells of one athlete in header order (`esc(r[h])` inputs:
`(v ?? "").toString()` prints the numeric id). -/
def athleteCells (a : Athlete) : List Str :=
  [jsNumToString a.id, a.first, a.last, a.position, a.jersey, a.team]

/-- `exportRosterCSV()`: the CSV text handed to the download helper. -/
def exportRosterCSV (st : AppState) : Str :=
  toCSVLines (st.doc.roster.map athleteCells) rosterHeaders

/-- `(r.first ?? r.firstname ?? r.name ?? "").toString().trim()`
(the `??` chains fall through only on an absent property, not on an
empty cell). -/
def csvFirst (r : List (Str × Str)) : Str :=
  trimStr (((rowGet r (str "first")).orElse
    (fun _ => (rowGet r (str "firstname")).orElse
      (fun _ => rowGet r (str "name")))).getD [])

/-- `(r.last ?? r.lastname ?? r.surname ?? "").toString().trim()`. -/
def csvLast (r : List (Str × Str)) : Str :=
  trimStr (((rowGet r (str "last")).orElse
    (fun _ => (rowGet r (str "lastname")).orElse
      (fun _ => rowGet r (str "surname")))).getD [])

/-- `(r.position ?? r.pos ?? "").toString().trim()`. -/
def csvPosition (r : List (Str × Str)) : Str :=
  trimStr (((rowGet r (str "position")).orElse
    (fun _ => rowGet r (str "pos"))).getD [])

/-- `(r.jersey ?? r.number ?? r.jerseyNumber ?? "").toString().trim()`. -/
def csvJersey (r : List (Str × Str)) : Str :=
  trimStr (((rowGet r (str "jersey")).orElse
    (fun _ => (rowGet r (str "number")).orElse
      (fun _ => rowGet r (str "jerseyNumber")))).getD [])

/-- `(r.team ?? r.squad ?? "").toString().trim()`. -/
def csvTeam (r : List (Str × Str)) : Str :=
  trimStr (((rowGet r (str "team")).orElse
    (fun _ => rowGet r (str "squad"))).getD [])

/-- `(r.id ?? "").toString().trim()`. -/
def csvIdRaw (r : List (Str × Str)) : Str :=
  trimStr ((rowGet r (str "id")).getD [])

/-- One row of `importRosterCSV`'s mapping loop: a freshly generated id
(`uidNumeric()`, the `fresh` input) only when the trimmed id cell is
empty, otherwise `Number` of the cell; rows with neither first nor last
populated are skipped. -/
def mapCsvRow (r : List (Str × Str)) (fresh : Int) : Option Athlete :=
  let id := if (csvIdRaw r).isEmpty then JsNum.int fresh else jsStringToNum (csvIdRaw r)
  if (csvFirst r).isEmpty && (csvLast r).isEmpty then none
  else some { id := id, first := csvFirst r, last := csvLast r,
              position := csvPosition r, jersey := csvJersey r, team := csvTeam r }

/-- The mapped list of an import, rows numbered from `i`: one fresh-id
draw per row position. -/
def mapCsvRowsAux (freshF : Nat → Int) : Nat → List (List (Str × Str)) → List Athlete
  | _, [] => []
  | i, r :: rs =>
    match mapCsvRow r (freshF i) with
    | none => mapCsvRowsAux freshF (i+1) rs
    | some a => a :: mapCsvRowsAux freshF (i+1) rs

/-- The mapped list of an import. -/
def mapCsvRows (rows : List (List (Str × Str))) (freshF : Nat → Int) : List Athlete :=
  mapCsvRowsAux freshF 0 rows

/-- `Map.prototype.set` on an insertion-ordered map with SameValueZero
keys: overwrite in place when the key exists, append otherwise. -/
def mapSet (m : List (JsNum × Athlete)) (k : JsNum) (v : Athlete) :
    List (JsNum × Athlete) :=
  if m.any (fun p => p.1 = k) then m.map (fun p => if p.1 = k then (k, v) else p)
  else m ++ [(k, v)]

/-- `new Map(state.roster.map(a => [Number(a.id), a]))`. -/
def mapOfRoster (roster : List Athlete) : List (JsNum × Athlete) :=
  roster.foldl (fun m a => mapSet m a.id a) []

/-- `selectTimestamp(id)`: set the selection pointer first; when the id
resolves to an annotation, load its strokes into the active buffer
(otherwise the function returns with only the pointer updated). -/
def selectTimestamp (st : AppState) (id : JsNum) : AppState :=
  let st := { st with selectedTsId := some id }
  match findTs st.doc.timestamps id with
  | none => st
  | some ts => { st with drawings := ts.drawings }

/-- The body of `importRosterCSV` after `fromCSV`: map the rows, merge
by id into the roster map, save, report, and re-select the selected
timestamp when one is selected. -/
def importRosterRows (st : AppState) (rows : List (List (Str × Str)))
    (freshF : Nat → Int) : AppState :=
  let mapped := mapCsvRows rows freshF
  let byId := mapped.foldl (fun m a => mapSet m a.id a) (mapOfRoster st.doc.roster)
  let st := saveState { st with doc := { st.doc with roster := byId.map (fun p => p.2) } }
  let st := { st with
    rosterStatus := str "Imported " ++ natChars mapped.length ++ str " rows (merged by ID).",
    status := str "Roster imported and UI refreshed." }
  if optTruthy st.selectedTsId then
    match st.selectedTsId with
    | some sid => selectTimestamp st sid
    | none => st
  else st

/-- `importRosterCSV()` on a picked file with the given text. -/
def importRosterCSV (st : AppState) (text : Str) (freshF : Nat → Int) : AppState :=
  importRosterRows st (fromCSV text).rows freshF

/-! ## Timestamp operations -/

/-- `fmtTime(sec)`: clamp at zero, floor, minutes and zero-padded
seconds. -/
def fmtTime (sec : Rat) : Str :=
  let t := (max 0 ⌊sec⌋).toNat
  natChars (t / 60) ++ ':' :: (if t % 60 < 10 then '0' :: natChars (t % 60) else natChars (t % 60))

/-- `addTimestampAtCurrent()`: no-op without a player; otherwise append
a fresh annotation at the floored current time, save, and select it. -/
def addTimestampAtCurrent (st : AppState) (playerPresent : Bool) (currentTime : Rat)
    (fresh : Int) : AppState :=
  if !playerPresent then st
  else
    let time : Int := ⌊currentTime⌋
    let ts : Annotation :=
      { id := JsNum.int fresh, time := time,
        title := str "New coaching point", description := [],
        taggedAthleteIds := [], drawings := [] }
    let st := saveState { st with doc := { st.doc with timestamps := st.doc.timestamps ++ [ts] } }
    let st := { st with status := str "Added timestamp @ " ++ fmtTime (time : Int) }
    selectTimestamp st ts.id

/-- `saveTimestampEdits()`: overwrite title and description of the
selected annotation with the trimmed editor contents, save. -/
def saveTimestampEdits (st : AppState) (titleIn descIn : Str) : AppState :=
  if !(optTruthy st.selectedTsId) then st
  else match st.selectedTsId with
  | none => st
  | some sid =>
    match findTs st.doc.timestamps sid with
    | none => st
    | some _ =>
      let timestamps := updateFirst (fun t => jsEqb t.id sid)
        (fun t => { t with title := trimStr titleIn, description := trimStr descIn })
        st.doc.timestamps
      let st := saveState { st with doc := { st.doc with timestamps := timestamps } }
      { st with status := str "Saved timestamp." }

/-- `deleteTimestamp()`: drop the selected annotation, clear selection
and the drawing buffer, save. -/
def deleteTimestamp (st : AppState) : AppState :=
  if !(optTruthy st.selectedTsId) then st
  else match st.selectedTsId with
  | none => st
  | some sid =>
    let timestamps := st.doc.timestamps.filter (fun t => !(jsEqb t.id sid))
    let st := saveState
      { st with
          doc := { st.doc with timestamps := timestamps },
          selectedTsId := none, drawings := [] }
    { st with status := str "Deleted timestamp." }

/-! ## Athlete tagging -/

/-- The Tag-button handler built by `renderAthleteSearchResults` (the
buttons exist only when the roster is non-empty).  The closed-over `ts`
is the selected annotation, or `null` when nothing (truthy) is
selected; the handler dereferences it unconditionally, so the `null`
case raises a TypeError, modelled as `Except.error`.  On success the
athlete id is appended unless already present (`includes`,
SameValueZero), and the state saved. -/
def tagClick (st : AppState) (athleteId : JsNum) : Except Unit AppState :=
  let tsOpt := if optTruthy st.selectedTsId then
      match st.selectedTsId with
      | some sid => findTs st.doc.timestamps sid
      | none => none
    else none
  match st.selectedTsId, tsOpt with
  | some sid, some ts =>
    let newTags := if ts.taggedAthleteIds.any (fun x => x = athleteId)
      then ts.taggedAthleteIds else ts.taggedAthleteIds ++ [athleteId]
    let timestamps := updateFirst (fun t => jsEqb t.id sid)
      (fun t => { t with taggedAthleteIds := newTags }) st.doc.timestamps
    Except.ok (saveState { st with doc := { st.doc with timestamps := timestamps } })
  | _, _ => Except.error ()

/-- The tag-pill click handler built by `renderTaggedAthletes` (pills
exist only when the selected annotation resolves): filter the clicked
id out of the tag list by `Number(x) !== Number(id)`, save. -/
def removeTagClick (st : AppState) (tagId : JsNum) : AppState :=
  match st.selectedTsId with
  | none => st
  | some sid =>
    match findTs st.doc.timestamps sid with
    | none => st
    | some ts =>
      let newTags := ts.taggedAthleteIds.filter (fun x => !(jsEqb x tagId))
      let timestamps := updateFirst (fun t => jsEqb t.id sid)
        (fun t => { t with taggedAthleteIds := newTags }) st.doc.timestamps
      let _ := ts
      saveState { st with doc := { st.doc with timestamps := timestamps } }

/-! ## Telestration (pointer gesture recorder) -/

/-- `drawStroke` renders nothing when the stroke has fewer than two
points (`if (pts.length < 2) return`). -/
def strokeRendered (s : Stroke) : Bool := 2 ≤ s.points.length

/-- The composite mode chosen by `drawStroke`: `destination-out` only
for the `erase` tool, `source-over` otherwise. -/
def strokeBlendMode (s : Stroke) : Str :=
  if s.tool = str "erase" then str "destination-out" else str "source-over"

/-- `pointerDown(e)`: ignored when drawing is disabled; with no (truthy)
selection only a guiding status message; otherwise begin an active
stroke with tool `"pen"`, the selected color and size, and the one
normalized event point. -/
def pointerDown (st : AppState) (p : Point) (color : Str) (size : Rat)
    (fresh : Int) (now : Int) : AppState :=
  if !st.drawEnabled then st
  else if !(optTruthy st.selectedTsId) then
    { st with status := str "Select a timestamp before drawing." }
  else
    { st with
        activeStroke := some
          { id := JsNum.int fresh, tool := str "pen",
            color := color, size := size, points := [p], createdAt := now } }

/-- `pointerMove(e)`: append one normalized point to the active stroke. -/
def pointerMove (st : AppState) (p : Point) : AppState :=
  if !st.drawEnabled then st
  else match st.activeStroke with
  | none => st
  | some s => { st with activeStroke := some { s with points := s.points ++ [p] } }

/-- `pointerUp(e)` (also bound to `pointercancel`): commit the active
stroke to the selected annotation's drawing list, refresh the buffer,
clear the active stroke, save. -/
def pointerUp (st : AppState) : AppState :=
  if !st.drawEnabled then st
  else match st.activeStroke with
  | none => st
  | some s =>
    match st.selectedTsId with
    | none => st
    | some sid =>
      match findTs st.doc.timestamps sid with
      | none => st
      | some ts =>
        let timestamps := updateFirst (fun t => jsEqb t.id sid)
          (fun t => { t with drawings := t.drawings ++ [s] }) st.doc.timestamps
        saveState
          { st with
              doc := { st.doc with timestamps := timestamps },
              drawings := ts.drawings ++ [s], activeStroke := none }

/-- The `clearDrawBtn` handler: empty the selected annotation's drawing
list and the buffer, save. -/
def clearDraw (st : AppState) : AppState :=
  if !(optTruthy st.selectedTsId) then st
  else match st.selectedTsId with
  | none => st
  | some sid =>
    match findTs st.doc.timestamps sid with
    | none => st
    | some _ =>
      let timestamps := updateFirst (fun t => jsEqb t.id sid)
        (fun t => { t with drawings := [] }) st.doc.timestamps
      let st := saveState
        { st with
            doc := { st.doc with timestamps := timestamps },
            drawings := [] }
      { st with status := str "Cleared drawings for selected timestamp." }

/-! ## Video load, new project, project import -/

/-- The `loadBtn` handler.  `parseYouTubeId` runs on the browser URL
parser, an external capability, so its result is this operation's
`parsedId` input; an empty id only reports, otherwise the video
reference is written into the document and saved (before any player
interaction). -/
def loadVideo (st : AppState) (urlIn parsedId : Str) : AppState :=
  if parsedId.isEmpty then
    { st with status := str "Could not parse YouTube ID. Paste a normal YouTube URL." }
  else
    saveState
      { st with doc :=
        { st.doc with youtubeUrl := trimStr urlIn, youtubeId := parsedId } }

/-- `newProject()`: fresh project id, timestamps emptied, selection and
drawing state cleared, roster and video reference untouched, saved. -/
def newProject (st : AppState) (fresh : Int) : AppState :=
  let st := saveState { st with
    doc := { st.doc with projectId := JsNum.int fresh, timestamps := [] },
    selectedTsId := none, drawings := [], activeStroke := none }
  { st with status := str "New project started (timestamps cleared, roster kept). " }

/-- A field of a parsed JSON object as `Array.isArray` sees it. -/
inductive JsonField (α : Type) where
  | absent
  | notArray
  | array (xs : List α)

/-- The parsed import object: the fields `importProject` reads, each
possibly absent (`??` defaults apply). -/
structure ImportObj where
  projectId : Option JsNum
  youtubeUrl : Option Str
  youtubeId : Option Str
  roster : JsonField Athlete
  timestamps : JsonField Annotation

/-- `importProject()` on a picked file: `input = none` models a text
whose `JSON.parse` throws or yields a non-object; otherwise the shape
check requires `roster` and `timestamps` to be arrays.  Any failure is
caught and reported, leaving everything but the status untouched.  On
success the document is rebuilt from the imported object (fresh project
id when absent), saved, and the selection and buffer cleared. -/
def importProject (st : AppState) (input : Option ImportObj) (fresh : Int) : AppState :=
  match input with
  | none => { st with status := str "Import failed: invalid project JSON." }
  | some obj =>
    match obj.roster, obj.timestamps with
    | JsonField.array roster, JsonField.array timestamps =>
      let doc : Doc := {
        projectId := obj.projectId.getD (JsNum.int fresh),
        youtubeUrl := obj.youtubeUrl.getD [],
        youtubeId := obj.youtubeId.getD [],
        roster := roster,
        timestamps := timestamps }
      let st := saveState { st with doc := doc }
      { st with selectedTsId := none, drawings := [],
                status := str "Imported project JSON." }
    | _, _ => { st with status := str "Import failed: invalid project JSON." }

/-- A field survives the CSV round trip verbatim exactly when it is
already trimmed and contains no line break (a newline is quoted by the
writer but the reader splits the text into physical lines before
unquoting, and a carriage return is not quoted at all). -/
def fieldOk (f : Str) : Prop := trimStr f = f ∧ '\n' ∉ f ∧ '\r' ∉ f

/-- All the free-text fields of an athlete are round-trip safe. -/
def athleteOk (a : Athlete) : Prop :=
  fieldOk a.first ∧ fieldOk a.last ∧ fieldOk a.position ∧ fieldOk a.jersey ∧
  fieldOk a.team

/-- The physical line written for one athlete. -/
def rowLine (a : Athlete) : Str := joinWith ',' ((athleteCells a).map escField)

/-- The header line of the export. -/
def headerLine : Str := joinWith ',' rosterHeaders

/-! ## Derived notions used to state properties -/

/-- `Array.isArray` of a parsed JSON field. -/
def isArrayField {α : Type} : JsonField α → Bool
  | JsonField.array _ => true
  | _ => false

/-- One full pointer gesture: pointer-down, a sequence of pointer-moves,
pointer-up. -/
def gesture (st : AppState) (p0 : Point) (moves : List Point) (color : Str)
    (size : Rat) (fresh : Int) (now : Int) : AppState :=
  pointerUp (moves.foldl pointerMove (pointerDown st p0 color size fresh now))

/-- The stroke such a gesture records (proved below to be what the code
commits): tool is the constant `"pen"`, the points are the down-event
point followed by the move-event points. -/
def gestureStroke (p0 : Point) (moves : List Point) (color : Str) (size : Rat)
    (fresh : Int) (now : Int) : Stroke :=
  { id := JsNum.int fresh, tool := str "pen", color := color, size := size,
    points := p0 :: moves, createdAt := now }

/-! ## Concrete fixtures for witnesses and counterexamples -/

/-- An empty freshly created project state (storage in sync). -/
def baseState : AppState :=
  { doc := { projectId := JsNum.int 1, youtubeUrl := [], youtubeId := [],
             roster := [], timestamps := [] },
    storage := some { projectId := JsNum.int 1, youtubeUrl := [], youtubeId := [],
                      roster := [], timestamps := [] },
    selectedTsId := none, drawEnabled := false,
    drawings := [], activeStroke := none, status := [], rosterStatus := [] }

def athleteA : Athlete :=
  { id := JsNum.int 5, first := str "Bob", last := str "Ray",
    position := [], jersey := [], team := [] }

def athleteB : Athlete :=
  { id := JsNum.int 5, first := str "Ann", last := str "Lee",
    position := [], jersey := [], team := [] }

/-- An athlete whose id is NaN, as produced by a CSV import whose id
cell holds non-numeric text. -/
def athleteNaN : Athlete :=
  { id := JsNum.nan, first := str "Ann", last := str "Lee",
    position := [], jersey := [], team := [] }

/-- An athlete whose first name carries a leading space (reachable via
project-JSON import, which stores roster records verbatim). -/
def athleteSpace : Athlete :=
  { id := JsNum.int 1, first := ' ' :: str "Bob", last := str "Ray",
    position := [], jersey := [], team := [] }

def annotPlain : Annotation :=
  { id := JsNum.int 1, time := 10, title := str "T", description := [],
    taggedAthleteIds := [], drawings := [] }

def annotNaNTag : Annotation :=
  { id := JsNum.int 1, time := 10, title := str "T", description := [],
    taggedAthleteIds := [JsNum.nan], drawings := [] }

/-- A state whose roster holds one athlete (id 5), storage in sync. -/
def st5 : AppState :=
  { baseState with
    doc := { baseState.doc with roster := [athleteA] },
    storage := some { baseState.doc with roster := [athleteA] } }

/-- Roster contains a NaN-id athlete who is tagged on an annotation. -/
def c1State : AppState :=
  { baseState with
    doc := { baseState.doc with roster := [athleteNaN],
                                timestamps := [annotNaNTag] } }

/-- Roster with an untrimmed first name and pairwise distinct ids. -/
def c4State : AppState :=
  { baseState with doc := { baseState.doc with roster := [athleteSpace] } }

/-- Drawing enabled and the annotation with id 1 selected. -/
def drawState : AppState :=
  { baseState with
    doc := { baseState.doc with timestamps := [annotPlain] },
    selectedTsId := some (JsNum.int 1), drawEnabled := true }

/-- A full import object whose roster and timestamps are arrays. -/
def c3Obj : ImportObj :=
  { projectId := some (JsNum.int 9), youtubeUrl := some (str "u"),
    youtubeId := some (str "v"), roster := JsonField.array [athleteA],
    timestamps := JsonField.array [annotPlain] }

/-- An import object whose roster field is not an array. -/
def c3BadObj : ImportObj :=
  { projectId := some (JsNum.int 9), youtubeUrl := none, youtubeId := none,
    roster := JsonField.notArray, timestamps := JsonField.array [] }

instance (f : Str) : Decidable (fieldOk f) := by
  unfold fieldOk
  infer_instance

instance (a : Athlete) : Decidable (athleteOk a) := by
  unfold athleteOk
  infer_instance

def athleteC : Athlete :=
  { id := JsNum.int 6, first := str "Cal", last := str "Kim",
    position := str "QB", jersey := str "12", team := str "A" }

/-- Two athletes with distinct ids and round-trip-safe fields. -/
def st56 : AppState :=
  { baseState with
    doc := { baseState.doc with roster := [athleteA, athleteC] },
    storage := some { baseState.doc with roster := [athleteA, athleteC] } }

/-! ## Lemmas: trimming -/

theorem dropWhile_eq_self_of_all {p : Char → Bool} {s : Str}
    (h : ∀ c ∈ s, p c = false) : s.dropWhile p = s := by
  cases s with
  | nil => rfl
  | cons c cs => simp [List.dropWhile_cons, h c (by simp)]

theorem trimStr_eq_self {s : Str} (h : ∀ c ∈ s, isJsWs c = false) :
    trimStr s = s := by
  unfold trimStr
  rw [dropWhile_eq_self_of_all h, dropWhile_eq_self_of_all, List.reverse_reverse]
  intro c hc
  exact h c (by simpa using hc)

theorem all_ws_of_trimStr_eq_nil {s : Str} (h : trimStr s = []) :
    ∀ c ∈ s, isJsWs c = true := by
  unfold trimStr at h
  rw [List.reverse_eq_nil_iff] at h
  have h2 : ∀ c ∈ (s.dropWhile isJsWs).reverse, isJsWs c = true := by
    rw [List.dropWhile_eq_nil_iff] at h
    simpa using h
  have h3 : ∀ c ∈ s.dropWhile isJsWs, isJsWs c = true := by
    intro c hc
    exact h2 c (by simpa using hc)
  intro c hc
  rw [← List.takeWhile_append_dropWhile (p := isJsWs) (l := s)] at hc
  rcases List.mem_append.mp hc with h4 | h4
  · exact List.mem_takeWhile_imp h4
  · exact h3 c h4

theorem trimStr_ne_nil {s : Str} {c : Char} (hc : c ∈ s)
    (hw : isJsWs c = false) : trimStr s ≠ [] := by
  intro h
  have := all_ws_of_trimStr_eq_nil h c hc
  rw [hw] at this
  exact Bool.false_ne_true this

/-! ## Lemmas: decimal printing and parsing round-trip -/

theorem digitVal_digitChar {d : Nat} (h : d < 10) :
    digitVal (digitChar d) = d := by
  interval_cases d <;> rfl

theorem isDigitCh_digitChar {d : Nat} (h : d < 10) :
    isDigitCh (digitChar d) = true := by
  interval_cases d <;> rfl

theorem toNat_of_isDigitCh {c : Char} (h : isDigitCh c = true) :
    48 ≤ c.toNat ∧ c.toNat ≤ 57 := by
  simp only [isDigitCh, Bool.and_eq_true, decide_eq_true_eq] at h
  omega

theorem isJsWs_of_isDigitCh {c : Char} (h : isDigitCh c = true) :
    isJsWs c = false := by
  obtain ⟨h1, h2⟩ := toNat_of_isDigitCh h
  rw [Bool.eq_false_iff]
  intro hc
  have hmem : c.toNat ∈ jsWsCodes := List.elem_iff.mp hc
  simp only [jsWsCodes, List.mem_cons, List.not_mem_nil, or_false] at hmem
  omega

theorem digitsVal_append_singleton (xs : Str) (c : Char) :
    digitsVal (xs ++ [c]) = 10 * digitsVal xs + digitVal c := by
  simp [digitsVal, List.foldl_append]

theorem natCharsAux_spec :
    ∀ fuel n, n < fuel →
      natCharsAux fuel n ≠ [] ∧ (∀ c ∈ natCharsAux fuel n, isDigitCh c = true) ∧
      digitsVal (natCharsAux fuel n) = n := by
  intro fuel
  induction fuel with
  | zero => omega
  | succ fuel ih =>
    intro n hn
    by_cases h10 : n < 10
    · refine ⟨by simp [natCharsAux, h10], ?_, ?_⟩
      · intro c hc
        simp [natCharsAux, h10] at hc
        subst hc
        exact isDigitCh_digitChar h10
      · simp [natCharsAux, h10, digitsVal, digitVal_digitChar h10]
    · have hdiv : n / 10 < fuel := by
        have := Nat.div_lt_self (by omega : 0 < n) (by omega : 1 < 10)
        omega
      obtain ⟨hne, hdig, hval⟩ := ih (n / 10) hdiv
      refine ⟨by simp [natCharsAux, h10], ?_, ?_⟩
      · intro c hc
        simp only [natCharsAux, if_neg h10, List.mem_append, List.mem_singleton] at hc
        rcases hc with hc | hc
        · exact hdig c hc
        · subst hc
          exact isDigitCh_digitChar (Nat.mod_lt n (by omega))
      · simp only [natCharsAux, if_neg h10]
        rw [digitsVal_append_singleton, hval, digitVal_digitChar (Nat.mod_lt n (by omega))]
        omega

theorem natChars_spec (n : Nat) :
    natChars n ≠ [] ∧ (∀ c ∈ natChars n, isDigitCh c = true) ∧
    digitsVal (natChars n) = n :=
  natCharsAux_spec (n + 1) n (Nat.lt_succ_self n)

theorem ne_minus_of_isDigitCh {c : Char} (h : isDigitCh c = true) : c ≠ '-' := by
  intro he
  subst he
  simp [isDigitCh] at h

theorem trimStr_natChars (n : Nat) : trimStr (natChars n) = natChars n :=
  trimStr_eq_self (fun c hc => isJsWs_of_isDigitCh ((natChars_spec n).2.1 c hc))

theorem jsStringToNum_natChars (n : Nat) :
    jsStringToNum (natChars n) = JsNum.int n := by
  obtain ⟨hne, hdig, hval⟩ := natChars_spec n
  have hnotempty : (natChars n).isEmpty = false := by
    cases h : natChars n with
    | nil => exact absurd h hne
    | cons c cs => rfl
  have hhead : ¬((natChars n).head? = some '-') := by
    cases h : natChars n with
    | nil => exact absurd h hne
    | cons c cs =>
      simp only [List.head?_cons, Option.some_inj]
      exact ne_minus_of_isDigitCh (hdig c (by rw [h]; simp))
  have hall : (natChars n).all isDigitCh = true := List.all_eq_true.mpr hdig
  simp [jsStringToNum, trimStr_natChars, hnotempty, hhead, hall, hval]

theorem jsStringToNum_jsNumToString (x : JsNum) :
    jsStringToNum (jsNumToString x) = x := by
  cases x with
  | nan => decide
  | int i =>
    by_cases hneg : i < 0
    · have hm : jsNumToString (JsNum.int i) = '-' :: natChars (-i).toNat := by
        simp [jsNumToString, intToStr, hneg]
      rw [hm]
      obtain ⟨hne, hdig, hval⟩ := natChars_spec (-i).toNat
      have htrim : trimStr ('-' :: natChars (-i).toNat) = '-' :: natChars (-i).toNat := by
        apply trimStr_eq_self
        intro c hc
        rcases List.mem_cons.mp hc with hc | hc
        · subst hc; decide
        · exact isJsWs_of_isDigitCh (hdig c hc)
      have hne2 : (natChars (-i).toNat).isEmpty = false := by
        cases h : natChars (-i).toNat with
        | nil => exact absurd h hne
        | cons c cs => rfl
      have hall : (natChars (-i).toNat).all isDigitCh = true := List.all_eq_true.mpr hdig
      have hcast : ((-i).toNat : Int) = -i := Int.toNat_of_nonneg (by omega)
      simp [jsStringToNum, htrim, hne2, hall, hval, hcast]
    · have hm : jsNumToString (JsNum.int i) = natChars i.toNat := by
        simp [jsNumToString, intToStr, hneg]
      rw [hm, jsStringToNum_natChars]
      congr 1
      exact Int.toNat_of_nonneg (by omega)

/-! ## Lemmas: the CSV scanner inverts the CSV printer -/

theorem hasSpecial_eq_false_iff {f : Str} :
    hasSpecial f = false ↔ ∀ c ∈ f, c ≠ '"' ∧ c ≠ ',' ∧ c ≠ '\n' := by
  simp only [hasSpecial, Bool.eq_false_iff, ne_eq, List.any_eq_true, not_exists, not_and,
    Bool.or_eq_true, beq_iff_eq, not_or]
  constructor
  · intro h c hc
    have := h c
    tauto
  · intro h c
    have := h c
    tauto

theorem plAux_plain (f : Str) (h : hasSpecial f = false) :
    ∀ (s cur : Str) (acc : List Str),
      plAux (f ++ s) PState.out cur acc = plAux s PState.out (cur ++ f) acc := by
  induction f with
  | nil => intro s cur acc; simp
  | cons c f ih =>
    intro s cur acc
    have hc := (hasSpecial_eq_false_iff.mp h) c (by simp)
    have hf : hasSpecial f = false := by
      rw [hasSpecial_eq_false_iff]
      intro d hd
      exact (hasSpecial_eq_false_iff.mp h) d (by simp [hd])
    have e : plAux ((c :: f) ++ s) PState.out cur acc =
        plAux (f ++ s) PState.out (cur ++ [c]) acc := by
      simp [plAux, hc.1, hc.2.1]
    rw [e, ih hf s (cur ++ [c]) acc]
    simp

theorem plAux_dbl (f : Str) :
    ∀ (s cur : Str) (acc : List Str),
      plAux (dblQuotes f ++ '"' :: s) PState.inq cur acc =
      plAux s PState.quo (cur ++ f) acc := by
  induction f with
  | nil => intro s cur acc; simp [dblQuotes, plAux]
  | cons c f ih =>
    intro s cur acc
    by_cases hc : c = '"'
    · subst hc
      have e1 : dblQuotes ('"' :: f) ++ '"' :: s = '"' :: '"' :: (dblQuotes f ++ '"' :: s) := by
        simp [dblQuotes]
      have e2 : plAux ('"' :: '"' :: (dblQuotes f ++ '"' :: s)) PState.inq cur acc =
          plAux (dblQuotes f ++ '"' :: s) PState.inq (cur ++ ['"']) acc := by
        simp [plAux]
      rw [e1, e2, ih s (cur ++ ['"']) acc]
      simp
    · have e1 : dblQuotes (c :: f) ++ '"' :: s = c :: (dblQuotes f ++ '"' :: s) := by
        simp [dblQuotes, hc]
      have e2 : plAux (c :: (dblQuotes f ++ '"' :: s)) PState.inq cur acc =
          plAux (dblQuotes f ++ '"' :: s) PState.inq (cur ++ [c]) acc := by
        simp [plAux, hc]
      rw [e1, e2, ih s (cur ++ [c]) acc]
      simp

theorem plAux_escField_last (f cur : Str) (acc : List Str) :
    plAux (escField f) PState.out cur acc = acc ++ [cur ++ f] := by
  by_cases hs : hasSpecial f
  · simp only [escField, if_pos hs]
    have : ('"' :: dblQuotes f ++ ['"']) = '"' :: (dblQuotes f ++ '"' :: []) := by simp
    rw [this]
    simp only [plAux, if_pos rfl]
    rw [plAux_dbl f [] cur acc]
    simp [plAux]
  · simp only [escField, if_neg hs]
    have : f = f ++ [] := by simp
    conv_lhs => rw [this]
    rw [plAux_plain f (by simpa using hs) [] cur acc]
    simp [plAux]

theorem plAux_escField_comma (f s cur : Str) (acc : List Str) :
    plAux (escField f ++ ',' :: s) PState.out cur acc =
    plAux s PState.out [] (acc ++ [cur ++ f]) := by
  by_cases hs : hasSpecial f
  · simp only [escField, if_pos hs]
    have : ('"' :: dblQuotes f ++ ['"']) ++ ',' :: s =
        '"' :: (dblQuotes f ++ '"' :: (',' :: s)) := by simp
    rw [this]
    simp only [plAux, if_pos rfl]
    rw [plAux_dbl f (',' :: s) cur acc]
    simp [plAux]
  · simp only [escField, if_neg hs]
    rw [plAux_plain f (by simpa using hs) (',' :: s) cur acc]
    simp [plAux]

theorem plAux_join (fs : List Str) :
    ∀ (f cur : Str) (acc : List Str),
      plAux (joinWith ',' ((f :: fs).map escField)) PState.out cur acc =
      acc ++ (cur ++ f) :: fs := by
  induction fs with
  | nil =>
    intro f cur acc
    simp only [List.map_cons, List.map_nil, joinWith]
    exact plAux_escField_last f cur acc
  | cons g gs ih =>
    intro f cur acc
    simp only [List.map_cons, joinWith]
    rw [plAux_escField_comma f (joinWith ',' (escField g :: gs.map escField)) cur acc]
    have := ih g [] (acc ++ [cur ++ f])
    simp only [List.map_cons] at this
    rw [this]
    simp

theorem parseLine_join (f : Str) (fs : List Str)
    (h : ∀ x ∈ f :: fs, trimStr x = x) :
    parseLine (joinWith ',' ((f :: fs).map escField)) = f :: fs := by
  unfold parseLine
  rw [plAux_join fs f [] []]
  simp only [List.nil_append, List.map_cons]
  rw [h f (by simp)]
  congr 1
  have : fs.map trimStr = fs.map id := by
    apply List.map_congr_left
    intro x hx
    exact h x (by simp [hx])
  rw [this, List.map_id]

/-! ## Lemmas: line splitting -/

theorem splitOnChar_no_sep {sep : Char} {l : Str} (h : sep ∉ l) :
    splitOnChar sep l = [l] := by
  induction l with
  | nil => rfl
  | cons c rest ih =>
    have hc : c ≠ sep := fun he => h (by simp [he])
    have hr : sep ∉ rest := fun hm => h (by simp [hm])
    simp only [splitOnChar, if_neg hc, ih hr]

theorem splitOnChar_append {sep : Char} {l : Str} (rest : Str) (h : sep ∉ l) :
    splitOnChar sep (l ++ sep :: rest) = l :: splitOnChar sep rest := by
  induction l with
  | nil => simp [splitOnChar]
  | cons c l ih =>
    have hc : c ≠ sep := fun he => h (by simp [he])
    have hl : sep ∉ l := fun hm => h (by simp [hm])
    have r := ih hl
    simp only [List.cons_append, splitOnChar, if_neg hc, List.append_eq, r]

theorem splitOnChar_joinWith {sep : Char} (ls : List Str) :
    ∀ l : Str, (∀ x ∈ l :: ls, sep ∉ x) →
      splitOnChar sep (joinWith sep (l :: ls)) = l :: ls := by
  induction ls with
  | nil =>
    intro l h
    exact splitOnChar_no_sep (h l (by simp))
  | cons m ms ih =>
    intro l h
    simp only [joinWith]
    rw [splitOnChar_append _ (h l (by simp))]
    congr 1
    exact ih m (fun x hx => h x (by simp at hx ⊢; tauto))

theorem normalizeNewlines_id : ∀ {s : Str}, '\r' ∉ s → normalizeNewlines s = s := by
  intro s
  induction s using normalizeNewlines.induct with
  | case1 => intro _; rfl
  | case2 rest ih => intro h; exact absurd (by simp) h
  | case3 rest hne ih => intro h; exact absurd (by simp) h
  | case4 c rest h1 h2 ih =>
    intro h
    have hc : ¬(c = '\r') := h2
    have hr : '\r' ∉ rest := fun hm => h (by simp [hm])
    have e : normalizeNewlines (c :: rest) = c :: normalizeNewlines rest := by
      rw [normalizeNewlines.eq_def]
      split <;> simp_all
    rw [e, ih hr]

/-! ## Lemmas: characters of the exported CSV text -/

theorem mem_dblQuotes {c : Char} : ∀ {f : Str}, c ∈ dblQuotes f → c ∈ f ∨ c = '"' := by
  intro f
  induction f with
  | nil => intro h; simp [dblQuotes] at h
  | cons d f ih =>
    intro h
    by_cases hd : d = '"'
    · subst hd
      have e : dblQuotes ('"' :: f) = '"' :: '"' :: dblQuotes f := by simp [dblQuotes]
      rw [e] at h
      simp only [List.mem_cons] at h
      simp only [List.mem_cons]
      have hi : c ∈ dblQuotes f → c ∈ f ∨ c = '"' := ih
      tauto
    · have e : dblQuotes (d :: f) = d :: dblQuotes f := by simp [dblQuotes, hd]
      rw [e] at h
      simp only [List.mem_cons] at h
      simp only [List.mem_cons]
      have hi : c ∈ dblQuotes f → c ∈ f ∨ c = '"' := ih
      tauto

theorem mem_escField {c : Char} {f : Str} (h : c ∈ escField f) : c ∈ f ∨ c = '"' := by
  by_cases hs : hasSpecial f
  · simp only [escField, if_pos hs, List.mem_cons, List.mem_append,
      List.mem_singleton] at h
    have hi : c ∈ dblQuotes f → c ∈ f ∨ c = '"' := mem_dblQuotes
    tauto
  · simp only [escField, if_neg hs] at h
    exact Or.inl h

theorem mem_joinWith {c sep : Char} :
    ∀ {ls : List Str}, c ∈ joinWith sep ls → (∃ l ∈ ls, c ∈ l) ∨ c = sep := by
  intro ls
  induction ls with
  | nil => intro h; simp [joinWith] at h
  | cons l ls ih =>
    intro h
    cases ls with
    | nil =>
      simp only [joinWith] at h
      exact Or.inl ⟨l, by simp, h⟩
    | cons m ms =>
      simp only [joinWith, List.mem_append, List.mem_cons] at h
      rcases h with h | h | h
      · exact Or.inl ⟨l, by simp, h⟩
      · exact Or.inr h
      · rcases ih h with ⟨x, hx, hcx⟩ | h2
        · exact Or.inl ⟨x, by simp [hx], hcx⟩
        · exact Or.inr h2

/-! ## Round-trip-safe fields -/

theorem mem_jsNumToString {c : Char} {x : JsNum} (h : c ∈ jsNumToString x) :
    isDigitCh c = true ∨ c = '-' ∨ c = 'N' ∨ c = 'a' := by
  cases x with
  | nan =>
    simp only [jsNumToString, str, List.mem_cons, List.not_mem_nil, or_false] at h
    rcases h with h | h | h <;> subst h <;> decide
  | int i =>
    simp only [jsNumToString, intToStr] at h
    by_cases hneg : i < 0
    · rw [if_pos hneg] at h
      rcases List.mem_cons.mp h with h | h
      · exact Or.inr (Or.inl h)
      · exact Or.inl ((natChars_spec (-i).toNat).2.1 c h)
    · rw [if_neg hneg] at h
      exact Or.inl ((natChars_spec i.toNat).2.1 c h)

theorem fieldOk_jsNumToString (x : JsNum) : fieldOk (jsNumToString x) := by
  refine ⟨?_, ?_, ?_⟩
  · apply trimStr_eq_self
    intro c hc
    rcases mem_jsNumToString hc with h | h | h | h
    · exact isJsWs_of_isDigitCh h
    all_goals (subst h; decide)
  · intro hc
    rcases mem_jsNumToString hc with h | h | h | h <;> simp_all [isDigitCh]
  · intro hc
    rcases mem_jsNumToString hc with h | h | h | h <;> simp_all [isDigitCh]

theorem jsNumToString_ne_nil (x : JsNum) : jsNumToString x ≠ [] := by
  cases x with
  | nan => decide
  | int i =>
    simp only [jsNumToString, intToStr]
    by_cases hneg : i < 0
    · simp [hneg]
    · simp only [if_neg hneg]
      exact (natChars_spec i.toNat).1

theorem athleteCells_trim {a : Athlete} (hok : athleteOk a) :
    ∀ x ∈ athleteCells a, trimStr x = x := by
  obtain ⟨h1, h2, h3, h4, h5⟩ := hok
  intro x hx
  simp only [athleteCells, List.mem_cons, List.not_mem_nil, or_false] at hx
  rcases hx with h | h | h | h | h | h <;> subst h
  · exact (fieldOk_jsNumToString a.id).1
  · exact h1.1
  · exact h2.1
  · exact h3.1
  · exact h4.1
  · exact h5.1

theorem athleteCells_no_break {a : Athlete} (hok : athleteOk a) :
    ∀ x ∈ athleteCells a, '\n' ∉ x ∧ '\r' ∉ x := by
  obtain ⟨h1, h2, h3, h4, h5⟩ := hok
  intro x hx
  simp only [athleteCells, List.mem_cons, List.not_mem_nil, or_false] at hx
  rcases hx with h | h | h | h | h | h <;> subst h
  · exact ⟨(fieldOk_jsNumToString a.id).2.1, (fieldOk_jsNumToString a.id).2.2⟩
  · exact ⟨h1.2.1, h1.2.2⟩
  · exact ⟨h2.2.1, h2.2.2⟩
  · exact ⟨h3.2.1, h3.2.2⟩
  · exact ⟨h4.2.1, h4.2.2⟩
  · exact ⟨h5.2.1, h5.2.2⟩

theorem parseLine_rowLine {a : Athlete} (hok : athleteOk a) :
    parseLine (rowLine a) = athleteCells a := by
  unfold rowLine athleteCells
  exact parseLine_join _ _ (athleteCells_trim hok)

theorem no_break_rowLine {a : Athlete} (hok : athleteOk a) :
    '\n' ∉ rowLine a ∧ '\r' ∉ rowLine a := by
  constructor <;> intro hc
  · rcases mem_joinWith hc with ⟨l, hl, hcl⟩ | h
    · obtain ⟨x, hx, hxl⟩ := List.mem_map.mp hl
      rcases mem_escField (hxl ▸ hcl) with h2 | h2
      · exact (athleteCells_no_break hok x hx).1 h2
      · simp at h2
    · simp at h
  · rcases mem_joinWith hc with ⟨l, hl, hcl⟩ | h
    · obtain ⟨x, hx, hxl⟩ := List.mem_map.mp hl
      rcases mem_escField (hxl ▸ hcl) with h2 | h2
      · exact (athleteCells_no_break hok x hx).2 h2
      · simp at h2
    · simp at h

theorem comma_mem_rowLine (a : Athlete) : ',' ∈ rowLine a := by
  unfold rowLine athleteCells
  simp [joinWith]

theorem trim_rowLine_ne_nil (a : Athlete) : trimStr (rowLine a) ≠ [] :=
  trimStr_ne_nil (comma_mem_rowLine a) (by decide)

theorem fromCSV_export (roster : List Athlete) (hok : ∀ a ∈ roster, athleteOk a) :
    fromCSV (toCSVLines (roster.map athleteCells) rosterHeaders) =
      { headers := rosterHeaders,
        rows := roster.map (fun a => mkRow rosterHeaders (athleteCells a)) } := by
  have htext : toCSVLines (roster.map athleteCells) rosterHeaders =
      joinWith '\n' (headerLine :: roster.map rowLine) := by
    simp [toCSVLines, headerLine, rowLine, List.map_map]
    rfl
  have hnocr : '\r' ∉ joinWith '\n' (headerLine :: roster.map rowLine) := by
    intro hc
    rcases mem_joinWith hc with ⟨l, hl, hcl⟩ | h
    · rcases List.mem_cons.mp hl with hl | hl
      · subst hl; revert hcl; decide
      · obtain ⟨a, ha, hal⟩ := List.mem_map.mp hl
        exact (no_break_rowLine (hok a ha)).2 (hal ▸ hcl)
    · simp at h
  have hnolf : ∀ x ∈ headerLine :: roster.map rowLine, '\n' ∉ x := by
    intro x hx
    rcases List.mem_cons.mp hx with hx | hx
    · subst hx; decide
    · obtain ⟨a, ha, hal⟩ := List.mem_map.mp hx
      exact hal ▸ (no_break_rowLine (hok a ha)).1
  have hsplit : splitOnChar '\n' (joinWith '\n' (headerLine :: roster.map rowLine)) =
      headerLine :: roster.map rowLine :=
    splitOnChar_joinWith _ _ hnolf
  have hfilter : (headerLine :: roster.map rowLine).filter
      (fun l => (trimStr l).length ≠ 0) = headerLine :: roster.map rowLine := by
    apply List.filter_eq_self.mpr
    intro x hx
    rcases List.mem_cons.mp hx with hx | hx
    · subst hx; decide
    · obtain ⟨a, ha, hal⟩ := List.mem_map.mp hx
      subst hal
      have hne : trimStr (rowLine a) ≠ [] := trim_rowLine_ne_nil a
      simpa using hne
  rw [htext]
  unfold fromCSV
  rw [normalizeNewlines_id hnocr, hsplit, hfilter]
  simp only []
  have hheaders : (parseLine headerLine).map trimStr = rosterHeaders := by decide
  rw [hheaders]
  congr 1
  rw [List.map_map]
  apply List.map_congr_left
  intro a ha
  simp [Function.comp, parseLine_rowLine (hok a ha)]

/-! ## Lemmas: reading the canonical row object back -/

theorem rowGet_canon_id (i f l p j t : Str) :
    rowGet (mkRow rosterHeaders [i, f, l, p, j, t]) (str "id") = some i := rfl

theorem rowGet_canon_first (i f l p j t : Str) :
    rowGet (mkRow rosterHeaders [i, f, l, p, j, t]) (str "first") = some f := rfl

theorem rowGet_canon_last (i f l p j t : Str) :
    rowGet (mkRow rosterHeaders [i, f, l, p, j, t]) (str "last") = some l := rfl

theorem rowGet_canon_position (i f l p j t : Str) :
    rowGet (mkRow rosterHeaders [i, f, l, p, j, t]) (str "position") = some p := rfl

theorem rowGet_canon_jersey (i f l p j t : Str) :
    rowGet (mkRow rosterHeaders [i, f, l, p, j, t]) (str "jersey") = some j := rfl

theorem rowGet_canon_team (i f l p j t : Str) :
    rowGet (mkRow rosterHeaders [i, f, l, p, j, t]) (str "team") = some t := rfl

theorem isEmpty_eq_false_of_ne_nil {l : Str} (h : l ≠ []) : l.isEmpty = false := by
  cases l with
  | nil => exact absurd rfl h
  | cons c cs => rfl

theorem mapCsvRow_canon (a : Athlete) (k : Int) (hok : athleteOk a) :
    mapCsvRow (mkRow rosterHeaders (athleteCells a)) k =
      if a.first.isEmpty && a.last.isEmpty then none else some a := by
  have hcells : athleteCells a =
      [jsNumToString a.id, a.first, a.last, a.position, a.jersey, a.team] := rfl
  have hfirst : csvFirst (mkRow rosterHeaders (athleteCells a)) = a.first := by
    rw [hcells]
    unfold csvFirst
    rw [rowGet_canon_first]
    simp [hok.1.1]
  have hlast : csvLast (mkRow rosterHeaders (athleteCells a)) = a.last := by
    rw [hcells]
    unfold csvLast
    rw [rowGet_canon_last]
    simp [hok.2.1.1]
  have hpos : csvPosition (mkRow rosterHeaders (athleteCells a)) = a.position := by
    rw [hcells]
    unfold csvPosition
    rw [rowGet_canon_position]
    simp [hok.2.2.1.1]
  have hjer : csvJersey (mkRow rosterHeaders (athleteCells a)) = a.jersey := by
    rw [hcells]
    unfold csvJersey
    rw [rowGet_canon_jersey]
    simp [hok.2.2.2.1.1]
  have hteam : csvTeam (mkRow rosterHeaders (athleteCells a)) = a.team := by
    rw [hcells]
    unfold csvTeam
    rw [rowGet_canon_team]
    simp [hok.2.2.2.2.1]
  have hid : csvIdRaw (mkRow rosterHeaders (athleteCells a)) = jsNumToString a.id := by
    rw [hcells]
    unfold csvIdRaw
    rw [rowGet_canon_id]
    simp [(fieldOk_jsNumToString a.id).1]
  have hidne : (csvIdRaw (mkRow rosterHeaders (athleteCells a))).isEmpty = false := by
    rw [hid]
    exact isEmpty_eq_false_of_ne_nil (jsNumToString_ne_nil a.id)
  unfold mapCsvRow
  rw [hfirst, hlast, hpos, hjer, hteam, hidne, hid]
  simp only [Bool.false_eq_true, if_false, jsStringToNum_jsNumToString]

/-! ## Lemmas: the id-keyed insertion-ordered map -/

theorem entry_unique {m : List (JsNum × Athlete)} (hnd : (m.map Prod.fst).Nodup)
    {p q : JsNum × Athlete} (hp : p ∈ m) (hq : q ∈ m) (hk : p.1 = q.1) : p = q := by
  induction m with
  | nil => simp at hp
  | cons h mTail ih =>
    simp only [List.map_cons, List.nodup_cons] at hnd
    rcases List.mem_cons.mp hp with hp1 | hp1 <;> rcases List.mem_cons.mp hq with hq1 | hq1
    · rw [hp1, hq1]
    · exfalso
      apply hnd.1
      subst hp1
      exact List.mem_map.mpr ⟨q, hq1, hk.symm⟩
    · exfalso
      apply hnd.1
      subst hq1
      exact List.mem_map.mpr ⟨p, hp1, hk⟩
    · exact ih hnd.2 hp1 hq1

theorem mapSet_mem_self {m : List (JsNum × Athlete)} (hnd : (m.map Prod.fst).Nodup)
    {k : JsNum} {v : Athlete} (hmem : (k, v) ∈ m) : mapSet m k v = m := by
  have hany : m.any (fun p => p.1 = k) = true :=
    List.any_eq_true.mpr ⟨(k, v), hmem, by simp⟩
  simp only [mapSet, hany, if_true]
  have : ∀ p ∈ m, (if p.1 = k then (k, v) else p) = p := by
    intro p hp
    by_cases hpk : p.1 = k
    · have he : p = (k, v) := entry_unique hnd hp hmem (by rw [hpk])
      rw [if_pos hpk, he]
    · rw [if_neg hpk]
  calc m.map (fun p => if p.1 = k then (k, v) else p) = m.map id := List.map_congr_left this
    _ = m := List.map_id m

theorem mapSet_not_mem {m : List (JsNum × Athlete)} {k : JsNum} {v : Athlete}
    (h : ∀ p ∈ m, p.1 ≠ k) : mapSet m k v = m ++ [(k, v)] := by
  have hany : m.any (fun p => p.1 = k) = false := by
    rw [List.any_eq_false]
    intro p hp
    simp [h p hp]
  simp [mapSet, hany]

theorem foldl_mapSet_disjoint :
    ∀ (l : List Athlete) (m : List (JsNum × Athlete)),
      (m.map Prod.fst ++ l.map Athlete.id).Nodup →
      l.foldl (fun acc a => mapSet acc a.id a) m = m ++ l.map (fun a => (a.id, a)) := by
  intro l
  induction l with
  | nil => intro m _; simp
  | cons a l ih =>
    intro m hnd
    have hdisj : ∀ p ∈ m, p.1 ≠ a.id := by
      intro p hp he
      rcases List.nodup_append.mp hnd with ⟨_, _, hdis⟩
      exact hdis (List.mem_map.mpr ⟨p, hp, rfl⟩) (by simp [he])
    simp only [List.foldl_cons]
    rw [mapSet_not_mem hdisj]
    rw [ih (m ++ [(a.id, a)]) (by simpa [List.append_assoc] using hnd)]
    simp

theorem mapOfRoster_eq {roster : List Athlete} (hnd : (roster.map Athlete.id).Nodup) :
    mapOfRoster roster = roster.map (fun a => (a.id, a)) := by
  have := foldl_mapSet_disjoint roster [] (by simpa using hnd)
  simpa [mapOfRoster] using this

theorem foldl_mapSet_fix :
    ∀ (l : List Athlete) (m : List (JsNum × Athlete)),
      (m.map Prod.fst).Nodup → (∀ a ∈ l, (a.id, a) ∈ m) →
      l.foldl (fun acc a => mapSet acc a.id a) m = m := by
  intro l
  induction l with
  | nil => intro m _ _; rfl
  | cons a l ih =>
    intro m hnd hmem
    simp only [List.foldl_cons]
    rw [mapSet_mem_self hnd (hmem a (by simp))]
    exact ih m hnd (fun x hx => hmem x (by simp [hx]))

/-! ## Lemmas: the import pipeline on exported rows -/

theorem mapCsvRowsAux_export (freshF : Nat → Int) :
    ∀ (roster : List Athlete) (i : Nat), (∀ a ∈ roster, athleteOk a) →
      ∀ x ∈ mapCsvRowsAux freshF i
        (roster.map (fun a => mkRow rosterHeaders (athleteCells a))), x ∈ roster := by
  intro roster
  induction roster with
  | nil => intro i _ x hx; simp [mapCsvRowsAux] at hx
  | cons a rest ih =>
    intro i hok x hx
    simp only [List.map_cons, mapCsvRowsAux] at hx
    rw [mapCsvRow_canon a (freshF i) (hok a (by simp))] at hx
    by_cases he : a.first.isEmpty && a.last.isEmpty
    · rw [if_pos he] at hx
      exact List.mem_cons.mpr (Or.inr (ih (i+1) (fun y hy => hok y (by simp [hy])) x hx))
    · rw [if_neg he] at hx
      rcases List.mem_cons.mp hx with hx | hx
      · simp [hx]
      · exact List.mem_cons.mpr (Or.inr (ih (i+1) (fun y hy => hok y (by simp [hy])) x hx))

theorem selectTimestamp_doc (st : AppState) (id : JsNum) :
    (selectTimestamp st id).doc = st.doc := by
  unfold selectTimestamp
  cases h : findTs st.doc.timestamps id <;> simp [h]

theorem importRosterRows_roster (st : AppState) (rows : List (List (Str × Str)))
    (freshF : Nat → Int) :
    (importRosterRows st rows freshF).doc.roster =
      ((mapCsvRows rows freshF).foldl (fun m a => mapSet m a.id a)
        (mapOfRoster st.doc.roster)).map (fun p => p.2) := by
  unfold importRosterRows
  by_cases ht : optTruthy st.selectedTsId
  · cases hs : st.selectedTsId with
    | none => rw [hs] at ht; simp [optTruthy] at ht
    | some sid =>
      rw [hs] at ht
      simp [saveState, hs, ht, selectTimestamp_doc]
  · simp [saveState, ht]

/-- Claim C4, amended: CSV export followed by CSV import over the same
id set is a no-op on roster content, provided additionally that every
free-text field of every athlete is already trimmed and contains no
line break.  (The reader trims every cell and splits the text into
physical lines before unquoting, so an untrimmed field or an embedded
newline or carriage return changes the roster; see the
counterexample.) -/
theorem C4_export_import_roundTrip (st : AppState) (freshF : Nat → Int)
    (hnd : (st.doc.roster.map Athlete.id).Nodup)
    (hok : ∀ a ∈ st.doc.roster, athleteOk a) :
    (importRosterCSV st (exportRosterCSV st) freshF).doc.roster = st.doc.roster := by
  unfold importRosterCSV exportRosterCSV
  rw [fromCSV_export st.doc.roster hok]
  rw [importRosterRows_roster]
  rw [mapOfRoster_eq hnd]
  have hkeys : ((st.doc.roster.map (fun a => (a.id, a))).map Prod.fst).Nodup := by
    rw [List.map_map]
    exact hnd
  have hsub : ∀ x ∈ mapCsvRows (st.doc.roster.map
      (fun a => mkRow rosterHeaders (athleteCells a))) freshF, x ∈ st.doc.roster :=
    mapCsvRowsAux_export freshF st.doc.roster 0 hok
  rw [foldl_mapSet_fix _ _ hkeys
    (fun x hx => List.mem_map.mpr ⟨x, hsub x hx, rfl⟩)]
  rw [List.map_map]
  exact List.map_id st.doc.roster

/-! ## Lemmas: the pointer-gesture recorder -/

theorem foldl_pointerMove (moves : List Point) :
    ∀ (st : AppState) (s : Stroke), st.drawEnabled = true → st.activeStroke = some s →
      moves.foldl pointerMove st =
        { st with activeStroke := some { s with points := s.points ++ moves } } := by
  induction moves with
  | nil =>
    intro st s hD hA
    simp only [List.foldl_nil, List.append_nil, ← hA]
  | cons m ms ih =>
    intro st s hD hA
    have e : pointerMove st m =
        { st with activeStroke := some { s with points := s.points ++ [m] } } := by
      simp [pointerMove, hD, hA]
    have hstep := ih (pointerMove st m) { s with points := s.points ++ [m] }
      (by rw [e]; exact hD) (by rw [e])
    rw [e] at hstep
    rw [List.foldl_cons, e, hstep]
    simp [List.append_assoc]

theorem gesture_commits (st : AppState) (sid : JsNum) (ts : Annotation)
    (hD : st.drawEnabled = true) (hsel : st.selectedTsId = some sid)
    (htr : jsTruthy sid = true) (hfind : findTs st.doc.timestamps sid = some ts)
    (p0 : Point) (moves : List Point) (color : Str) (size : Rat) (fresh now : Int) :
    gesture st p0 moves color size fresh now =
      saveState { st with
        doc := { st.doc with
          timestamps := updateFirst (fun t => jsEqb t.id sid)
              (fun t => { t with drawings :=
                  t.drawings ++ [gestureStroke p0 moves color size fresh now] })
              st.doc.timestamps },
        drawings := ts.drawings ++ [gestureStroke p0 moves color size fresh now],
        activeStroke := none } := by
  have htruthy : optTruthy st.selectedTsId = true := by
    rw [hsel]
    exact htr
  have hdown : pointerDown st p0 color size fresh now =
      { st with
        activeStroke := some
          { id := JsNum.int fresh, tool := str "pen", color := color,
            size := size, points := [p0], createdAt := now } } := by
    simp [pointerDown, hD, htruthy]
  have hmoves := foldl_pointerMove moves (pointerDown st p0 color size fresh now)
    { id := JsNum.int fresh, tool := str "pen", color := color, size := size,
      points := [p0], createdAt := now } (by rw [hdown]; exact hD) (by rw [hdown])
  rw [hdown] at hmoves
  unfold gesture
  rw [hdown, hmoves]
  simp only [pointerUp, hD, Bool.not_true, Bool.false_eq_true, if_false]
  simp only [hsel, hfind]
  simp [gestureStroke, saveState]

/-! ## Lemmas: write-through persistence, operation by operation -/

theorem selectTimestamp_storage (st : AppState) (id : JsNum) :
    (selectTimestamp st id).storage = st.storage := by
  unfold selectTimestamp
  cases h : findTs st.doc.timestamps id <;> simp [h]

theorem addAthlete_synced (st : AppState) (h : st.storage = some st.doc)
    (f l p j t : Str) (fresh : Int) :
    (addAthlete st f l p j t fresh).storage = some (addAthlete st f l p j t fresh).doc := by
  simp only [addAthlete, saveState]
  split
  · exact h
  · rfl

theorem removeAthleteClick_synced (st : AppState) (aid : JsNum) :
    (removeAthleteClick st aid).storage = some (removeAthleteClick st aid).doc := rfl

theorem clearRoster_synced (st : AppState) :
    (clearRoster st).storage = some (clearRoster st).doc := rfl

theorem importRosterRows_synced (st : AppState) (rows : List (List (Str × Str)))
    (freshF : Nat → Int) :
    (importRosterRows st rows freshF).storage = some (importRosterRows st rows freshF).doc := by
  unfold importRosterRows
  by_cases ht : optTruthy st.selectedTsId
  · cases hs : st.selectedTsId with
    | none => rw [hs] at ht; simp [optTruthy] at ht
    | some sid =>
      rw [hs] at ht
      simp [saveState, hs, ht, selectTimestamp_doc, selectTimestamp_storage]
  · simp [saveState, ht]

theorem importRosterCSV_synced (st : AppState) (text : Str) (freshF : Nat → Int) :
    (importRosterCSV st text freshF).storage = some (importRosterCSV st text freshF).doc :=
  importRosterRows_synced st (fromCSV text).rows freshF

theorem addTimestampAtCurrent_synced (st : AppState) (h : st.storage = some st.doc)
    (pp : Bool) (cur : Rat) (fresh : Int) :
    (addTimestampAtCurrent st pp cur fresh).storage =
      some (addTimestampAtCurrent st pp cur fresh).doc := by
  unfold addTimestampAtCurrent
  cases pp with
  | false => exact h
  | true => simp [saveState, selectTimestamp_doc, selectTimestamp_storage]

theorem saveTimestampEdits_synced (st : AppState) (h : st.storage = some st.doc)
    (ti de : Str) :
    (saveTimestampEdits st ti de).storage = some (saveTimestampEdits st ti de).doc := by
  unfold saveTimestampEdits
  by_cases ht : optTruthy st.selectedTsId
  · cases hs : st.selectedTsId with
    | none => rw [hs] at ht; simp [optTruthy] at ht
    | some sid =>
      rw [hs] at ht
      simp only [ht, Bool.not_true, Bool.false_eq_true, if_false]
      cases hf : findTs st.doc.timestamps sid <;> simp [hf, saveState, h]
  · simp [ht, h]

theorem deleteTimestamp_synced (st : AppState) (h : st.storage = some st.doc) :
    (deleteTimestamp st).storage = some (deleteTimestamp st).doc := by
  unfold deleteTimestamp
  by_cases ht : optTruthy st.selectedTsId
  · cases hs : st.selectedTsId with
    | none => rw [hs] at ht; simp [optTruthy] at ht
    | some sid =>
      rw [hs] at ht
      simp [ht, saveState]
  · simp [ht, h]

theorem tagClick_synced (st : AppState) (aid : JsNum) (st2 : AppState)
    (heq : tagClick st aid = Except.ok st2) : st2.storage = some st2.doc := by
  unfold tagClick at heq
  cases hsel : st.selectedTsId with
  | none => rw [hsel] at heq; simp at heq
  | some sid =>
    rw [hsel] at heq
    by_cases htr : jsTruthy sid
    · have ho : optTruthy (some sid) = true := htr
      rw [ho] at heq
      simp only [if_true] at heq
      cases hf : findTs st.doc.timestamps sid with
      | none => rw [hf] at heq; simp at heq
      | some ts =>
        rw [hf] at heq
        simp only [Except.ok.injEq] at heq
        rw [← heq]
        rfl
    · have ho : optTruthy (some sid) = false := by
        simp [optTruthy, htr]
      rw [ho] at heq
      simp at heq

theorem removeTagClick_synced (st : AppState) (h : st.storage = some st.doc)
    (aid : JsNum) :
    (removeTagClick st aid).storage = some (removeTagClick st aid).doc := by
  unfold removeTagClick
  cases hsel : st.selectedTsId with
  | none => exact h
  | some sid => cases hf : findTs st.doc.timestamps sid <;> simp [hf, saveState, h]

theorem pointerUp_synced (st : AppState) (h : st.storage = some st.doc) :
    (pointerUp st).storage = some (pointerUp st).doc := by
  unfold pointerUp
  cases hD : st.drawEnabled with
  | false => simpa using h
  | true =>
    simp only [Bool.not_true, Bool.false_eq_true, if_false]
    cases hA : st.activeStroke with
    | none => exact h
    | some s =>
      cases hsel : st.selectedTsId with
      | none => exact h
      | some sid =>
        cases hf : findTs st.doc.timestamps sid <;> simp [hf, saveState, h]

theorem clearDraw_synced (st : AppState) (h : st.storage = some st.doc) :
    (clearDraw st).storage = some (clearDraw st).doc := by
  unfold clearDraw
  by_cases ht : optTruthy st.selectedTsId
  · cases hs : st.selectedTsId with
    | none => rw [hs] at ht; simp [optTruthy] at ht
    | some sid =>
      rw [hs] at ht
      simp only [ht, Bool.not_true, Bool.false_eq_true, if_false]
      cases hf : findTs st.doc.timestamps sid <;> simp [hf, saveState, h]
  · simp [ht, h]

theorem loadVideo_synced (st : AppState) (h : st.storage = some st.doc)
    (url pid : Str) :
    (loadVideo st url pid).storage = some (loadVideo st url pid).doc := by
  unfold loadVideo
  split
  · exact h
  · rfl

theorem newProject_synced (st : AppState) (fresh : Int) :
    (newProject st fresh).storage = some (newProject st fresh).doc := rfl

theorem importProject_synced (st : AppState) (h : st.storage = some st.doc)
    (input : Option ImportObj) (fresh : Int) :
    (importProject st input fresh).storage = some (importProject st input fresh).doc := by
  unfold importProject
  cases input with
  | none => exact h
  | some obj =>
    cases hr : obj.roster <;> cases ht2 : obj.timestamps <;>
      simp [hr, ht2, saveState, h]

/-! # Claims -/

/-- Claim C1, amended: the removed athlete id must be an actual number.
For every integer id, the roster-delete handler removes every athlete
whose id equals it from the roster, removes it from every annotation's
taggedAthleteIds list, and persists the updated document.  (For a NaN
id — reachable by CSV-importing a non-numeric id cell — the strict
inequality `Number(x.id) !== id` used by both filters is always true,
so nothing is removed; see the counterexample.) -/
theorem C1_remove_cascades (st : AppState) (n : Int) :
    (∀ a ∈ (removeAthleteClick st (JsNum.int n)).doc.roster, a.id ≠ JsNum.int n) ∧
    (∀ ts ∈ (removeAthleteClick st (JsNum.int n)).doc.timestamps,
      JsNum.int n ∉ ts.taggedAthleteIds) ∧
    (removeAthleteClick st (JsNum.int n)).storage =
      some (removeAthleteClick st (JsNum.int n)).doc := by
  have hid : jsStringToNum (jsNumToString (JsNum.int n)) = JsNum.int n :=
    jsStringToNum_jsNumToString _
  refine ⟨?_, ?_, removeAthleteClick_synced st (JsNum.int n)⟩
  · intro a ha
    simp only [removeAthleteClick, hid, saveState] at ha
    rw [List.mem_filter] at ha
    intro he
    rw [he] at ha
    simp [jsEqb] at ha
  · intro ts hts
    simp only [removeAthleteClick, hid, saveState] at hts
    rw [List.mem_map] at hts
    obtain ⟨ts0, hts0, rfl⟩ := hts
    intro hmem
    simp only [List.mem_filter] at hmem
    simp [jsEqb] at hmem

/-- Claim C1 counterexample: the roster holds an athlete whose id is NaN
(reachable by CSV-importing a non-numeric id cell) and an annotation
tags that id.  Clicking Delete on that athlete completes, yet the
athlete is still in the roster and the id is still an element of the
annotation's tag list, because `NaN !== NaN`. -/
theorem C1_counterexample :
    JsNum.nan ∈ c1State.doc.roster.map Athlete.id ∧
    (removeAthleteClick c1State JsNum.nan).doc.roster = [athleteNaN] ∧
    (removeAthleteClick c1State JsNum.nan).doc.timestamps.map
      Annotation.taggedAthleteIds = [[JsNum.nan]] := by decide

/-- Claim C1 witness: the cascade removal instantiated at a concrete
state and the concrete integer id 5. -/
theorem C1_remove_cascades_witness :
    (∀ a ∈ (removeAthleteClick st5 (JsNum.int 5)).doc.roster, a.id ≠ JsNum.int 5) ∧
    (∀ ts ∈ (removeAthleteClick st5 (JsNum.int 5)).doc.timestamps,
      JsNum.int 5 ∉ ts.taggedAthleteIds) ∧
    (removeAthleteClick st5 (JsNum.int 5)).storage =
      some (removeAthleteClick st5 (JsNum.int 5)).doc :=
  C1_remove_cascades st5 5

/-- Claim C9: the "new project" operation empties the timestamps list,
clears the selection and the drawing state, leaves the roster and the
video reference (url and id) exactly as they were, and persists the
result. -/
theorem C9_new_project_frame (st : AppState) (fresh : Int) :
    (newProject st fresh).doc.timestamps = [] ∧
    (newProject st fresh).selectedTsId = none ∧
    (newProject st fresh).drawings = [] ∧
    (newProject st fresh).activeStroke = none ∧
    (newProject st fresh).doc.roster = st.doc.roster ∧
    (newProject st fresh).doc.youtubeUrl = st.doc.youtubeUrl ∧
    (newProject st fresh).doc.youtubeId = st.doc.youtubeId ∧
    (newProject st fresh).storage = some (newProject st fresh).doc :=
  ⟨rfl, rfl, rfl, rfl, rfl, rfl, rfl, rfl⟩

/-- Claim C7: the Tag button exists for every athlete row even when no
annotation is selected (labelled "Select timestamp"), but its click
handler dereferences the selected annotation unconditionally
(`ts.taggedAthleteIds` with `ts === null`), so with a non-empty roster
and no selection the click raises a TypeError instead of being the
no-op the specification describes.  The document is not mutated (the
throw happens before any write), but the error escapes. -/
theorem C7_tag_without_selection_throws :
    st5.doc.roster ≠ [] ∧ st5.selectedTsId = none ∧
    tagClick st5 (JsNum.int 5) = Except.error () :=
  ⟨by decide, rfl, rfl⟩

/-- Claim C2: every operation that mutates the project document
(athlete add/remove/clear, roster CSV import, timestamp add/edit/delete,
tag add/remove, stroke commit, clear drawings, video load, new project,
project import) writes the entire document to local storage before
returning: assuming storage held the document beforehand, it holds
exactly the operation's resulting document afterwards (operations that
abort without mutating leave the already-synced storage untouched; the
tag-add handler is stated over its non-throwing outcomes). -/
theorem C2_write_through (st : AppState) (h : st.storage = some st.doc)
    (f l p j t ti de url pid text : Str) (fresh : Int) (aid : JsNum)
    (freshF : Nat → Int) (pp : Bool) (cur : Rat) (input : Option ImportObj) :
    ((addAthlete st f l p j t fresh).storage = some (addAthlete st f l p j t fresh).doc) ∧
    ((removeAthleteClick st aid).storage = some (removeAthleteClick st aid).doc) ∧
    ((clearRoster st).storage = some (clearRoster st).doc) ∧
    ((importRosterCSV st text freshF).storage = some (importRosterCSV st text freshF).doc) ∧
    ((addTimestampAtCurrent st pp cur fresh).storage =
      some (addTimestampAtCurrent st pp cur fresh).doc) ∧
    ((saveTimestampEdits st ti de).storage = some (saveTimestampEdits st ti de).doc) ∧
    ((deleteTimestamp st).storage = some (deleteTimestamp st).doc) ∧
    (∀ st2, tagClick st aid = Except.ok st2 → st2.storage = some st2.doc) ∧
    ((removeTagClick st aid).storage = some (removeTagClick st aid).doc) ∧
    ((pointerUp st).storage = some (pointerUp st).doc) ∧
    ((clearDraw st).storage = some (clearDraw st).doc) ∧
    ((loadVideo st url pid).storage = some (loadVideo st url pid).doc) ∧
    ((newProject st fresh).storage = some (newProject st fresh).doc) ∧
    ((importProject st input fresh).storage = some (importProject st input fresh).doc) :=
  ⟨addAthlete_synced st h f l p j t fresh,
   removeAthleteClick_synced st aid,
   clearRoster_synced st,
   importRosterCSV_synced st text freshF,
   addTimestampAtCurrent_synced st h pp cur fresh,
   saveTimestampEdits_synced st h ti de,
   deleteTimestamp_synced st h,
   fun st2 heq => tagClick_synced st aid st2 heq,
   removeTagClick_synced st h aid,
   pointerUp_synced st h,
   clearDraw_synced st h,
   loadVideo_synced st h url pid,
   newProject_synced st fresh,
   importProject_synced st h input fresh⟩

/-- Claim C2 witness: the write-through conjunction instantiated at a
concrete synced state and concrete inputs. -/
theorem C2_write_through_witness :
    st5.storage = some st5.doc ∧
    (((addAthlete st5 [] [] [] [] [] 3).storage = some (addAthlete st5 [] [] [] [] [] 3).doc) ∧
     ((removeAthleteClick st5 JsNum.nan).storage = some (removeAthleteClick st5 JsNum.nan).doc) ∧
     ((clearRoster st5).storage = some (clearRoster st5).doc) ∧
     ((importRosterCSV st5 [] (fun _ => 0)).storage =
       some (importRosterCSV st5 [] (fun _ => 0)).doc) ∧
     ((addTimestampAtCurrent st5 false 0 3).storage =
       some (addTimestampAtCurrent st5 false 0 3).doc) ∧
     ((saveTimestampEdits st5 [] []).storage = some (saveTimestampEdits st5 [] []).doc) ∧
     ((deleteTimestamp st5).storage = some (deleteTimestamp st5).doc) ∧
     (∀ st2, tagClick st5 JsNum.nan = Except.ok st2 → st2.storage = some st2.doc) ∧
     ((removeTagClick st5 JsNum.nan).storage = some (removeTagClick st5 JsNum.nan).doc) ∧
     ((pointerUp st5).storage = some (pointerUp st5).doc) ∧
     ((clearDraw st5).storage = some (clearDraw st5).doc) ∧
     ((loadVideo st5 [] []).storage = some (loadVideo st5 [] []).doc) ∧
     ((newProject st5 3).storage = some (newProject st5 3).doc) ∧
     ((importProject st5 none 3).storage = some (importProject st5 none 3).doc)) :=
  ⟨by decide,
   C2_write_through st5 (by decide) [] [] [] [] [] [] [] [] [] [] 3 JsNum.nan
     (fun _ => 0) false 0 none⟩

/-- Claim C3: project JSON import validates that the parsed object has
`roster` and `timestamps` fields that are both arrays.  A failed parse
(`none`) or a failed shape check leaves the in-memory document and the
persisted copy completely unchanged and reports the failure; on success
the document is rebuilt wholesale from the imported object (with a
fresh project id only when the field is absent) and persisted. -/
theorem C3_import_validation (st : AppState) (fresh : Int) :
    ((importProject st none fresh).doc = st.doc ∧
     (importProject st none fresh).storage = st.storage ∧
     (importProject st none fresh).status = str "Import failed: invalid project JSON.") ∧
    (∀ obj : ImportObj, (isArrayField obj.roster && isArrayField obj.timestamps) = false →
      (importProject st (some obj) fresh).doc = st.doc ∧
      (importProject st (some obj) fresh).storage = st.storage ∧
      (importProject st (some obj) fresh).status =
        str "Import failed: invalid project JSON.") ∧
    (∀ (obj : ImportObj) (roster : List Athlete) (tss : List Annotation),
      obj.roster = JsonField.array roster → obj.timestamps = JsonField.array tss →
      (importProject st (some obj) fresh).doc =
        { projectId := obj.projectId.getD (JsNum.int fresh),
          youtubeUrl := obj.youtubeUrl.getD [], youtubeId := obj.youtubeId.getD [],
          roster := roster, timestamps := tss } ∧
      (importProject st (some obj) fresh).storage =
        some (importProject st (some obj) fresh).doc) := by
  refine ⟨⟨rfl, rfl, rfl⟩, ?_, ?_⟩
  · intro obj hfalse
    cases hr : obj.roster <;> cases ht2 : obj.timestamps <;>
      simp_all [importProject, isArrayField]
  · intro obj roster tss hr ht2
    constructor
    · simp [importProject, hr, ht2, saveState]
    · simp [importProject, hr, ht2, saveState]

/-- Claim C3 witness: a valid full import object replaces the document
wholesale and is persisted; instantiated consequences of the theorem. -/
theorem C3_import_validation_witness :
    (importProject baseState (some c3Obj) 7).doc =
      { projectId := (c3Obj.projectId).getD (JsNum.int 7),
        youtubeUrl := (c3Obj.youtubeUrl).getD [], youtubeId := (c3Obj.youtubeId).getD [],
        roster := [athleteA], timestamps := [annotPlain] } ∧
    (importProject baseState (some c3Obj) 7).storage =
      some (importProject baseState (some c3Obj) 7).doc :=
  (C3_import_validation baseState 7).2.2 c3Obj [athleteA] [annotPlain] rfl rfl

/-- Claim C5, amended: a valid athlete addition (non-empty trimmed first
and last name) grows the roster by exactly one, appending a record whose
id is the freshly generated `uidNumeric()` value; the new id is distinct
from every existing id whenever the generated value does not collide
with one (the generator derives from the clock plus three random digits
and the code performs no uniqueness check, so a collision — e.g. with an
imported id — is possible; see the counterexample). -/
theorem C5_add_athlete (st : AppState) (f l p j t : Str) (fresh : Int)
    (hf : trimStr f ≠ []) (hl : trimStr l ≠ []) :
    (addAthlete st f l p j t fresh).doc.roster.length = st.doc.roster.length + 1 ∧
    (addAthlete st f l p j t fresh).doc.roster.map Athlete.id =
      st.doc.roster.map Athlete.id ++ [JsNum.int fresh] ∧
    ((st.doc.roster.map Athlete.id).Nodup →
      JsNum.int fresh ∉ st.doc.roster.map Athlete.id →
      ((addAthlete st f l p j t fresh).doc.roster.map Athlete.id).Nodup) ∧
    (addAthlete st f l p j t fresh).storage = some (addAthlete st f l p j t fresh).doc := by
  have hfe : (trimStr f).isEmpty = false := isEmpty_eq_false_of_ne_nil hf
  have hle : (trimStr l).isEmpty = false := isEmpty_eq_false_of_ne_nil hl
  have hros : (addAthlete st f l p j t fresh).doc.roster =
      st.doc.roster ++ [⟨JsNum.int fresh, trimStr f, trimStr l, trimStr p,
        trimStr j, trimStr t⟩] := by
    simp [addAthlete, hfe, hle, saveState]
  refine ⟨?_, ?_, ?_, ?_⟩
  · rw [hros]; simp
  · rw [hros]; simp
  · intro hnd hni
    rw [hros, List.map_append]
    rw [List.nodup_append]
    refine ⟨hnd, by simp, ?_⟩
    intro x hx hx2
    simp only [List.map_cons, List.map_nil, List.mem_singleton] at hx2
    rw [hx2] at hx
    exact hni hx
  · simp [addAthlete, hfe, hle, saveState]

/-- Claim C5 witness: adding a valid athlete on a synced one-athlete
roster with a non-colliding generated id. -/
theorem C5_add_athlete_witness :
    trimStr (str "Jo") ≠ [] ∧
    (addAthlete st5 (str "Jo") (str "Doe") [] [] [] 7).doc.roster.length =
      st5.doc.roster.length + 1 ∧
    (addAthlete st5 (str "Jo") (str "Doe") [] [] [] 7).doc.roster.map Athlete.id =
      st5.doc.roster.map Athlete.id ++ [JsNum.int 7] :=
  ⟨by decide,
   (C5_add_athlete st5 (str "Jo") (str "Doe") [] [] [] 7 (by decide) (by decide)).1,
   (C5_add_athlete st5 (str "Jo") (str "Doe") [] [] [] 7 (by decide) (by decide)).2.1⟩

/-- Claim C5 counterexample: `uidNumeric()` is a clock-plus-random value
with no uniqueness check against the roster, so it can equal an existing
(for example imported) id.  With the roster holding id 5 and the
generator returning 5, a valid addition assigns an id that is already
present: the claimed distinctness fails. -/
theorem C5_counterexample :
    trimStr (str "Ann") ≠ [] ∧ trimStr (str "Lee") ≠ [] ∧
    JsNum.int 5 ∈ st5.doc.roster.map Athlete.id ∧
    (addAthlete st5 (str "Ann") (str "Lee") [] [] [] 5).doc.roster.map Athlete.id =
      [JsNum.int 5, JsNum.int 5] := by decide

/-- Claim C4 witness: the round trip at a concrete two-athlete roster
with distinct ids and trimmed, break-free fields. -/
theorem C4_export_import_roundTrip_witness :
    (st56.doc.roster.map Athlete.id).Nodup ∧
    (∀ a ∈ st56.doc.roster, athleteOk a) ∧
    (importRosterCSV st56 (exportRosterCSV st56) (fun _ => 7)).doc.roster =
      st56.doc.roster :=
  ⟨by decide, by decide,
   C4_export_import_roundTrip st56 (fun _ => 7) (by decide) (by decide)⟩

/-- Claim C4 counterexample: a roster with pairwise distinct ids whose
only athlete has a leading space in the first name (reachable via
project-JSON import, which stores roster records verbatim).  The CSV
reader trims every cell, so export followed by import changes the
roster: the round trip is not a no-op. -/
theorem C4_counterexample :
    (c4State.doc.roster.map Athlete.id).Nodup ∧
    (importRosterCSV c4State (exportRosterCSV c4State) (fun _ => 999)).doc.roster ≠
      c4State.doc.roster := by decide

theorem mapSet_replace {m : List (JsNum × Athlete)} {k : JsNum} {v : Athlete}
    (hmem : ∃ p ∈ m, p.1 = k) :
    mapSet m k v = m.map (fun p => if p.1 = k then (k, v) else p) := by
  obtain ⟨p, hp, hpk⟩ := hmem
  have hany : m.any (fun q => q.1 = k) = true :=
    List.any_eq_true.mpr ⟨p, hp, by simp [hpk]⟩
  simp [mapSet, hany]

/-- Claim C6, amended: roster CSV import skips every row in which
neither the first-name nor the last-name column (under any accepted
synonym) is populated; it assigns a freshly generated id only when the
id cell is absent or empty — a non-empty non-numeric id cell is coerced
with `Number`, which yields NaN, not a fresh id (see the
counterexample); and when the mapped row's id equals an existing roster
id the import overwrites that record in place. -/
theorem C6_csv_import_mapping :
    (∀ (r : List (Str × Str)) (k : Int), csvFirst r = [] → csvLast r = [] →
      mapCsvRow r k = none) ∧
    (∀ (r : List (Str × Str)) (k : Int) (a : Athlete), csvIdRaw r = [] →
      mapCsvRow r k = some a → a.id = JsNum.int k) ∧
    (∀ (r : List (Str × Str)) (k : Int) (a : Athlete), csvIdRaw r ≠ [] →
      mapCsvRow r k = some a → a.id = jsStringToNum (csvIdRaw r)) ∧
    (∀ (st : AppState) (rows : List (List (Str × Str))) (freshF : Nat → Int)
        (b : Athlete),
      mapCsvRows rows freshF = [b] →
      (st.doc.roster.map Athlete.id).Nodup →
      b.id ∈ st.doc.roster.map Athlete.id →
      (importRosterRows st rows freshF).doc.roster =
        st.doc.roster.map (fun x => if x.id = b.id then b else x)) := by
  refine ⟨?_, ?_, ?_, ?_⟩
  · intro r k h1 h2
    simp [mapCsvRow, h1, h2]
  · intro r k a hid heq
    have hide : (csvIdRaw r).isEmpty = true := by simp [hid]
    simp only [mapCsvRow, hide, if_true] at heq
    split at heq
    · exact absurd heq (by simp)
    · have := Option.some_injective _ heq
      rw [← this]
  · intro r k a hid heq
    have hide : (csvIdRaw r).isEmpty = false := isEmpty_eq_false_of_ne_nil hid
    simp only [mapCsvRow, hide, Bool.false_eq_true, if_false] at heq
    split at heq
    · exact absurd heq (by simp)
    · have := Option.some_injective _ heq
      rw [← this]
  · intro st rows freshF b hmapped hnd hbmem
    rw [importRosterRows_roster, hmapped, mapOfRoster_eq hnd]
    simp only [List.foldl_cons, List.foldl_nil]
    rw [mapSet_replace ?_]
    · rw [List.map_map, List.map_map]
      apply List.map_congr_left
      intro x hx
      by_cases hxb : x.id = b.id <;> simp [hxb]
    · obtain ⟨x, hx, hxe⟩ := List.mem_map.mp hbmem
      exact ⟨(x.id, x), List.mem_map.mpr ⟨x, hx, rfl⟩, by simp [hxe]⟩

/-- Claim C6 witness: a one-row import whose mapped athlete collides
with the only roster id overwrites that record in place; the row keeps
its numeric id, and conclusions of the theorem are instantiated. -/
theorem C6_csv_import_mapping_witness :
    mapCsvRows [mkRow rosterHeaders (athleteCells athleteB)] (fun _ => 9) = [athleteB] ∧
    (importRosterRows st5 [mkRow rosterHeaders (athleteCells athleteB)]
      (fun _ => 9)).doc.roster =
      st5.doc.roster.map (fun x => if x.id = athleteB.id then athleteB else x) :=
  ⟨by decide,
   C6_csv_import_mapping.2.2.2 st5 [mkRow rosterHeaders (athleteCells athleteB)]
     (fun _ => 9) athleteB (by decide) (by decide) (by decide)⟩

/-- Claim C6 counterexample: a row whose id cell holds the non-numeric
text "abc" is kept with id NaN (the result of `Number("abc")`), not
with the freshly generated id 999 the claim promises. -/
theorem C6_counterexample :
    (importRosterCSV baseState
      (str "id,first,last,position,jersey,team") (fun _ => 999)).doc.roster = [] ∧
    (importRosterCSV baseState
      ((str "id,first,last,position,jersey,team") ++ '\n' :: str "abc,Bob,Smith,,,")
      (fun _ => 999)).doc.roster.map Athlete.id = [JsNum.nan] := by decide

/-- Claim C8, amended: every stroke committed by a pointer gesture
(pointer-down, any number of pointer-moves, pointer-up, with drawing
enabled and an annotation selected) has tool `"pen"` — not `"draw"` as
the specification says, and never `"erase"`; the renderer treats any
tool other than `"erase"` with the normal `source-over` composite, so
`"pen"` draws normally and the erase blend mode stays unreachable from
the recorder. -/
theorem C8_stroke_tool_pen (st : AppState) (sid : JsNum) (ts : Annotation)
    (hD : st.drawEnabled = true) (hsel : st.selectedTsId = some sid)
    (htr : jsTruthy sid = true) (hfind : findTs st.doc.timestamps sid = some ts)
    (p0 : Point) (moves : List Point) (color : Str) (size : Rat) (fresh now : Int) :
    (gesture st p0 moves color size fresh now).doc.timestamps =
      updateFirst (fun t => jsEqb t.id sid)
        (fun t => { t with drawings :=
            t.drawings ++ [gestureStroke p0 moves color size fresh now] })
        st.doc.timestamps ∧
    (gestureStroke p0 moves color size fresh now).tool = str "pen" ∧
    (gestureStroke p0 moves color size fresh now).tool ≠ str "draw" ∧
    (gestureStroke p0 moves color size fresh now).tool ≠ str "erase" ∧
    strokeBlendMode (gestureStroke p0 moves color size fresh now) = str "source-over" := by
  refine ⟨?_, rfl, ?_, ?_, rfl⟩
  · rw [gesture_commits st sid ts hD hsel htr hfind p0 moves color size fresh now]
    rfl
  · intro h
    rw [show (gestureStroke p0 moves color size fresh now).tool = str "pen" from rfl] at h
    exact absurd h (by decide)
  · intro h
    rw [show (gestureStroke p0 moves color size fresh now).tool = str "pen" from rfl] at h
    exact absurd h (by decide)

/-- Claim C8 witness: the gesture characterization instantiated on a
concrete drawing-enabled state with annotation 1 selected. -/
theorem C8_stroke_tool_pen_witness :
    (gesture drawState ⟨0, 0⟩ [⟨1, 1⟩] (str "#00E5FF") 4 99 0).doc.timestamps =
      updateFirst (fun t => jsEqb t.id (JsNum.int 1))
        (fun t => { t with drawings :=
            t.drawings ++ [gestureStroke ⟨0, 0⟩ [⟨1, 1⟩] (str "#00E5FF") 4 99 0] })
        drawState.doc.timestamps ∧
    (gestureStroke ⟨0, 0⟩ [⟨1, 1⟩] (str "#00E5FF") 4 99 0).tool = str "pen" ∧
    (gestureStroke ⟨0, 0⟩ [⟨1, 1⟩] (str "#00E5FF") 4 99 0).tool ≠ str "draw" ∧
    (gestureStroke ⟨0, 0⟩ [⟨1, 1⟩] (str "#00E5FF") 4 99 0).tool ≠ str "erase" ∧
    strokeBlendMode (gestureStroke ⟨0, 0⟩ [⟨1, 1⟩] (str "#00E5FF") 4 99 0) =
      str "source-over" :=
  C8_stroke_tool_pen drawState (JsNum.int 1) annotPlain rfl rfl (by decide)
    (by decide) ⟨0, 0⟩ [⟨1, 1⟩] (str "#00E5FF") 4 99 0

/-- Claim C8 counterexample: a concrete committed stroke's tool is the
string `"pen"`, not `"draw"` as the claim states. -/
theorem C8_counterexample :
    (gesture drawState ⟨0, 0⟩ [] (str "#00E5FF") 4 99 0).doc.timestamps.map
      (fun t => t.drawings.map Stroke.tool) = [[str "pen"]] ∧
    str "pen" ≠ str "draw" := by decide

/-- Claim C10: a pointer-down followed immediately by pointer-up (no
pointer-move), with drawing enabled and an annotation selected, still
commits a stroke containing exactly one point to that annotation's
drawings list and persists the document, even though the renderer skips
strokes with fewer than two points. -/
theorem C10_single_point_stroke (st : AppState) (sid : JsNum) (ts : Annotation)
    (hD : st.drawEnabled = true) (hsel : st.selectedTsId = some sid)
    (htr : jsTruthy sid = true) (hfind : findTs st.doc.timestamps sid = some ts)
    (p0 : Point) (color : Str) (size : Rat) (fresh now : Int) :
    (pointerUp (pointerDown st p0 color size fresh now)).doc.timestamps =
      updateFirst (fun t => jsEqb t.id sid)
        (fun t => { t with drawings :=
            t.drawings ++ [gestureStroke p0 [] color size fresh now] })
        st.doc.timestamps ∧
    (gestureStroke p0 [] color size fresh now).points = [p0] ∧
    (gestureStroke p0 [] color size fresh now).points.length = 1 ∧
    strokeRendered (gestureStroke p0 [] color size fresh now) = false ∧
    (pointerUp (pointerDown st p0 color size fresh now)).storage =
      some (pointerUp (pointerDown st p0 color size fresh now)).doc := by
  have he : gesture st p0 [] color size fresh now =
      pointerUp (pointerDown st p0 color size fresh now) := rfl
  have hg := gesture_commits st sid ts hD hsel htr hfind p0 [] color size fresh now
  rw [he] at hg
  rw [hg]
  exact ⟨rfl, rfl, rfl, rfl, rfl⟩

/-- Claim C10 witness: the single-point commit instantiated on a
concrete drawing-enabled state with annotation 1 selected. -/
theorem C10_single_point_stroke_witness :
    (pointerUp (pointerDown drawState ⟨0, 0⟩ (str "#FF0000") 4 41 2)).doc.timestamps =
      updateFirst (fun t => jsEqb t.id (JsNum.int 1))
        (fun t => { t with drawings :=
            t.drawings ++ [gestureStroke ⟨0, 0⟩ [] (str "#FF0000") 4 41 2] })
        drawState.doc.timestamps ∧
    (gestureStroke ⟨0, 0⟩ [] (str "#FF0000") 4 41 2).points = [⟨0, 0⟩] ∧
    (gestureStroke ⟨0, 0⟩ [] (str "#FF0000") 4 41 2).points.length = 1 ∧
    strokeRendered (gestureStroke ⟨0, 0⟩ [] (str "#FF0000") 4 41 2) = false ∧
    (pointerUp (pointerDown drawState ⟨0, 0⟩ (str "#FF0000") 4 41 2)).storage =
      some (pointerUp (pointerDown drawState ⟨0, 0⟩ (str "#FF0000") 4 41 2)).doc :=
  C10_single_point_stroke drawState (JsNum.int 1) annotPlain rfl rfl (by decide)
    (by decide) ⟨0, 0⟩ (str "#FF0000") 4 41 2

end Coachboard
